import Mathlib

/-!
Shallow embedding of the delivery-platform CSV ingestion engine
(`src/ingestion-engine.ts`, `src/database.ts`, `src/transforms.ts`,
`src/utils.ts`) in Lean 4.

JavaScript strings are modelled as Lean `String` / `List Char`; JS numbers
as `ℚ` (exact rationals; IEEE-754 rounding of decimal literals and the
`Infinity` literal are not modelled — no claim depends on them); JS `Date`
objects as a record of the constructor arguments (calendar normalisation
and time zones are not modelled — no claim depends on them); exceptions as
`Except`; the SQL store as explicit state (`DB`) threaded through each
operation, so that state mutated before a thrown error survives the throw,
as it does with a real database.
-/

namespace Ingest

/-- JS whitespace test (`String.prototype.trim`, `\s`). -/
def isWs (c : Char) : Bool := c.isWhitespace

/-- Drop leading whitespace. -/
def trimLeft (l : List Char) : List Char := l.dropWhile isWs

/-- Drop trailing whitespace. -/
def trimRight (l : List Char) : List Char := (l.reverse.dropWhile isWs).reverse

/-- `String.prototype.trim()` on a character list. -/
def trimList (l : List Char) : List Char := trimRight (trimLeft l)

/-- `String.prototype.trim()`. -/
def jsTrim (s : String) : String := String.mk (trimList s.toList)

/-- Numeric value of a (non-empty) digit run, most significant first. -/
def digitsVal (l : List Char) : Nat :=
  l.foldl (fun acc c => acc * 10 + (c.toNat - '0'.toNat)) 0

/-- Value of a hex-digit run (for the `0x` prefix recognised by `parseInt`). -/
def hexDigitsVal (l : List Char) : Nat :=
  l.foldl (fun acc c =>
    acc * 16 + (if c.isDigit then c.toNat - '0'.toNat
                else if 'a' ≤ c ∧ c ≤ 'f' then c.toNat - 'a'.toNat + 10
                else c.toNat - 'A'.toNat + 10)) 0

def isHexDigit (c : Char) : Bool :=
  c.isDigit ∨ ('a' ≤ c ∧ c ≤ 'f') ∨ ('A' ≤ c ∧ c ≤ 'F')

/-- The longest leading digit run interpreted as a natural number;
`none` when there is no leading digit. -/
def digitsPrefixVal (l : List Char) : Option Nat :=
  let ds := l.takeWhile Char.isDigit
  if ds = [] then none else some (digitsVal ds)

/-- Unsigned part of JS `parseInt(s)` (radix auto-detection of `0x`). -/
def jsParseIntUnsigned (l : List Char) : Option Nat :=
  match l with
  | '0' :: 'x' :: rest =>
      let ds := rest.takeWhile isHexDigit
      if ds = [] then none else some (hexDigitsVal ds)
  | '0' :: 'X' :: rest =>
      let ds := rest.takeWhile isHexDigit
      if ds = [] then none else some (hexDigitsVal ds)
  | _ => digitsPrefixVal l

/-- JS `parseInt(s)` (no explicit radix): skip leading whitespace, optional
sign, longest numeric prefix; `none` models `NaN`. -/
def jsParseIntList (l : List Char) : Option Int :=
  match trimLeft l with
  | '-' :: rest => (jsParseIntUnsigned rest).map (fun n => -(n : Int))
  | '+' :: rest => (jsParseIntUnsigned rest).map (fun n => (n : Int))
  | rest => (jsParseIntUnsigned rest).map (fun n => (n : Int))

/-- The syntactic part of JS `parseFloat(s)`: skip leading whitespace and
split the longest leading decimal literal into
(negative?, integer digits, fraction digits, exponent); `none` models
`NaN`.  The `Infinity` literal is not modelled. -/
def jsParseFloatParts (l0 : List Char) : Option (Bool × List Char × List Char × Int) :=
  let l1 := trimLeft l0
  let sign : Bool × List Char :=
    match l1 with
    | '-' :: r => (true, r)
    | '+' :: r => (false, r)
    | _ => (false, l1)
  let ip := sign.2.takeWhile Char.isDigit
  let l2 := sign.2.drop ip.length
  let fp : List Char × List Char :=
    match l2 with
    | '.' :: r => (r.takeWhile Char.isDigit, (r.takeWhile Char.isDigit).length |> r.drop)
    | _ => ([], l2)
  if ip = [] ∧ fp.1 = [] then none
  else
    let expo : Int :=
      match fp.2 with
      | 'e' :: '-' :: r => (digitsPrefixVal r).elim 0 (fun n => -(n : Int))
      | 'e' :: '+' :: r => (digitsPrefixVal r).elim 0 (fun n => (n : Int))
      | 'e' :: r => (digitsPrefixVal r).elim 0 (fun n => (n : Int))
      | 'E' :: '-' :: r => (digitsPrefixVal r).elim 0 (fun n => -(n : Int))
      | 'E' :: '+' :: r => (digitsPrefixVal r).elim 0 (fun n => (n : Int))
      | 'E' :: r => (digitsPrefixVal r).elim 0 (fun n => (n : Int))
      | _ => 0
    some (sign.1, ip, fp.1, expo)

/-- The numeric value of a parsed decimal literal. -/
def jsParseFloatVal (p : Bool × List Char × List Char × Int) : ℚ :=
  (if p.1 then (-1 : ℚ) else 1) *
    ((digitsVal p.2.1 : ℚ) + (digitsVal p.2.2.1 : ℚ) / ((10 : ℚ) ^ p.2.2.1.length)) *
    (10 : ℚ) ^ p.2.2.2

/-- JS `parseFloat(s)`: the longest leading decimal literal's value;
`none` models `NaN`. -/
def jsParseFloatList (l0 : List Char) : Option ℚ :=
  (jsParseFloatParts l0).map jsParseFloatVal

/-- JS `Math.round`: round half toward positive infinity. -/
def jsRound (q : ℚ) : Int := ⌊q + 1/2⌋

/-- Truncation toward zero (JS `parseInt` applied to a fractional number). -/
def ratTrunc (q : ℚ) : Int := if 0 ≤ q then ⌊q⌋ else -⌊-q⌋

/-- Split a character list on a separator character (JS `String.split`). -/
def splitChar (sep : Char) : List Char → List (List Char)
  | [] => [[]]
  | c :: rest =>
      let r := splitChar sep rest
      if c = sep then [] :: r
      else match r with
        | [] => [[c]]
        | f :: rs => (c :: f) :: rs

end Ingest

namespace Ingest

/-- A JS `Date` as the arguments it was constructed from
(`new Date(year, monthIndex, day, hours, minutes, seconds)`).
Calendar normalisation and time zones are not modelled. -/
structure DateV where
  year : Int
  monthIndex : Int
  day : Int
  hour : Int
  minute : Int
  second : Int
deriving DecidableEq, Repr

/-- The JS runtime values flowing through the ingestion pipeline. -/
inductive JSVal where
  | undefinedV
  | null
  | str (s : String)
  | num (q : ℚ)
  | bool (b : Bool)
  | date (d : DateV)
deriving DecidableEq, Repr

/-- JS truthiness. -/
def truthy : JSVal → Bool
  | .undefinedV => false
  | .null => false
  | .str s => s ≠ ""
  | .num q => q ≠ 0
  | .bool b => b
  | .date _ => true

/-- `a || b`. -/
def jsOr (a b : JSVal) : JSVal := if truthy a then a else b

/-- `x === undefined || x === null || x === ''` (the required-field test). -/
def jsEmptyish : JSVal → Bool
  | .undefinedV => true
  | .null => true
  | .str s => s = ""
  | _ => false

/-- A possibly-`undefined` JS string (a raw CSV cell that may be absent). -/
abbrev OptStr := Option String

/-- Truthiness of a possibly-undefined string (`!value` is its negation). -/
def optTruthy (v : OptStr) : Bool :=
  match v with
  | some s => s ≠ ""
  | none => false

/-- A raw cell as a `JSVal` (`undefined` for an absent column). -/
def jsOfOptStr : OptStr → JSVal
  | some s => .str s
  | none => .undefinedV

/-- `String.prototype.toLowerCase()` (character-wise; the JS and Unicode
lowercase maps agree on the ASCII configuration data used here). -/
def jsToLower (s : String) : String := String.mk (s.toList.map Char.toLower)

/-- `Validators.isValidString` from `src/utils.ts`: a string with non-empty
trim.  (`undefined` is not a string.) -/
def isValidStringOpt (v : OptStr) : Bool :=
  match v with
  | some s => jsTrim s ≠ ""
  | none => false

/-- `parseInt` applied to a field of a normalized record (the value is
coerced to a string first; number formatting is exact for the values the
pipeline produces). -/
def jsParseIntVal : JSVal → Option Int
  | .str s => jsParseIntList s.toList
  | .num q => some (ratTrunc q)
  | _ => none

/-- `x > 0` where `x` is the (possibly `NaN`) result of `parseInt`. -/
def optGtZero : Option Int → Bool
  | some n => 0 < n
  | none => false

/-- The error taxonomy of `src/utils.ts` (`ValidationError`,
`ProcessingError` with the offending value from its context,
`DatabaseError`). -/
inductive IngestError where
  | validationError (message : String)
  | processingError (message : String) (offending : String)
  | databaseError (message : String)
deriving DecidableEq, Repr

/-! ### The Transform Library (`DataTransforms`, src/transforms.ts) -/

/-- `existsOrEmpty`: `value || ''`. -/
def existsOrEmpty (v : OptStr) : String := v.getD ""

/-- `existsOrDefault`: `value || defaultValue` (default `'unknown'`). -/
def existsOrDefault (v : OptStr) (dflt : String := "unknown") : String :=
  if optTruthy v then v.getD "" else dflt

/-- `parseBoolean`: strict equality with `trueValue` (default `'1'`). -/
def parseBoolean (v : OptStr) (trueValue : String := "1") : Bool :=
  v = some trueValue

/-- `parsePercentage`: `parseFloat`, `'unknown'` on `NaN`, else
`round(value * 100) + '%'`. -/
def parsePercentage (v : OptStr) : String :=
  match jsParseFloatList (v.getD "undefined").toList with
  | none => "unknown"
  | some q => toString (jsRound (q * 100)) ++ "%"

/-- `timeToMinutes` (src/transforms.ts lines 23–57): `null` for
empty/whitespace input; for input containing `:` split into 2–3 parts,
bounds-check minutes/seconds (0–59) and non-negative hours
(`parseInt(p) || 0` turns a non-numeric part into 0), returning
`hours*60 + minutes + round(seconds/60)`; otherwise `parseFloat` with a
non-negative check and `round`. -/
def timeParts (s : String) : List (List Char) := splitChar ':' s.toList

/-- `parseInt(parts[0]) || 0`. -/
def timeHours (s : String) : Int := (jsParseIntList ((timeParts s).getD 0 [])).getD 0

/-- `parseInt(parts[1]) || 0`. -/
def timeMins (s : String) : Int := (jsParseIntList ((timeParts s).getD 1 [])).getD 0

/-- `parseInt(parts[2]) || 0` (`parts[2]` is `undefined` for H:M input). -/
def timeSecs (s : String) : Int := (jsParseIntList ((timeParts s).getD 2 [])).getD 0

def timeToMinutes (value : OptStr) : Except IngestError (Option Int) :=
  if ¬ isValidStringOpt value then .ok none
  else
    let s := value.getD ""
    if s.toList.contains ':' then
      if (timeParts s).length < 2 ∨ (timeParts s).length > 3 then
        .error (.processingError "Invalid time format" s)
      else
        if timeHours s < 0 ∨ timeMins s < 0 ∨ timeMins s > 59 ∨
           timeSecs s < 0 ∨ timeSecs s > 59 then
          .error (.processingError "Invalid time values" s)
        else
          .ok (some (timeHours s * 60 + timeMins s +
            jsRound ((timeSecs s : ℚ) / 60)))
    else
      match jsParseFloatList s.toList with
      | none => .error (.processingError "Invalid numeric time value" s)
      | some q =>
          if q < 0 then .error (.processingError "Invalid numeric time value" s)
          else .ok (some (jsRound q))

end Ingest

namespace Ingest

/-- The anchored match of `/^(\d{1,2})\/(\d{1,2})\/(\d{4})\s+(\d{1,2}):(\d{2}):(\d{2})$/`
(the UK `DD/MM/YYYY HH:MM:SS` pattern in `parseDate`). -/
def ukDateMatch (l : List Char) : Option (Nat × Nat × Nat × Nat × Nat × Nat) :=
  let day := l.takeWhile Char.isDigit
  if day.length < 1 ∨ day.length > 2 then none else
  match l.drop day.length with
  | '/' :: l1 =>
    let mo := l1.takeWhile Char.isDigit
    if mo.length < 1 ∨ mo.length > 2 then none else
    (match l1.drop mo.length with
     | '/' :: l2 =>
       let yr := l2.takeWhile Char.isDigit
       if yr.length ≠ 4 then none else
       let l3 := l2.drop 4
       let sp := l3.takeWhile isWs
       if sp.length = 0 then none else
       let l4 := l3.drop sp.length
       let hr := l4.takeWhile Char.isDigit
       if hr.length < 1 ∨ hr.length > 2 then none else
       (match l4.drop hr.length with
        | ':' :: l5 =>
          let mi := l5.takeWhile Char.isDigit
          if mi.length ≠ 2 then none else
          (match l5.drop 2 with
           | ':' :: l6 =>
             let sec := l6.takeWhile Char.isDigit
             if sec.length ≠ 2 ∨ l6.drop 2 ≠ [] then none else
             some (digitsVal day, digitsVal mo, digitsVal yr,
                   digitsVal hr, digitsVal mi, digitsVal sec)
           | _ => none)
        | _ => none)
     | _ => none)
  | _ => none

/-- `parseDate` (src/transforms.ts lines 59–103), parameterised by the
engine's generic date parse `gp` (the behaviour of `new Date(string)`):
`null` for empty input, the bounds-checked UK pattern first (out-of-range
components raise a `ProcessingError`), then the generic parse, raising on
an unparsable result. -/
def parseDate (gp : String → Option DateV) (value : OptStr) :
    Except IngestError (Option DateV) :=
  if ¬ isValidStringOpt value then .ok none
  else
    let s := value.getD ""
    match ukDateMatch s.toList with
    | some (day, mo, yr, hr, mi, sec) =>
        if day < 1 ∨ day > 31 ∨ mo < 1 ∨ mo > 12 ∨
           hr > 23 ∨ mi > 59 ∨ sec > 59 then
          .error (.processingError "Invalid date/time components" s)
        else
          .ok (some ⟨(yr : Int), (mo : Int) - 1, (day : Int),
                     (hr : Int), (mi : Int), (sec : Int)⟩)
    | none =>
        match gp s with
        | none => .error (.processingError "Invalid date format" s)
        | some d => .ok (some d)

/-- `parseDeliveryPlatform2Time`: `value || ''`. -/
def parseDeliveryPlatform2Time (v : OptStr) : String := v.getD ""

/-- The anchored match of `/^(\d{4})-(\d{1,2})-(\d{1,2})$/`. -/
def dp2DateMatch (l : List Char) : Option (Nat × Nat × Nat) :=
  let yr := l.takeWhile Char.isDigit
  if yr.length ≠ 4 then none else
  match l.drop 4 with
  | '-' :: l1 =>
    let mo := l1.takeWhile Char.isDigit
    if mo.length < 1 ∨ mo.length > 2 then none else
    (match l1.drop mo.length with
     | '-' :: l2 =>
       let day := l2.takeWhile Char.isDigit
       if day.length < 1 ∨ day.length > 2 ∨ l2.drop day.length ≠ [] then none
       else some (digitsVal yr, digitsVal mo, digitsVal day)
     | _ => none)
  | _ => none

/-- The anchored match of `/^(\d{1,2}):(\d{2})$/`. -/
def dp2TimeMatch (l : List Char) : Option (Nat × Nat) :=
  let hr := l.takeWhile Char.isDigit
  if hr.length < 1 ∨ hr.length > 2 then none else
  match l.drop hr.length with
  | ':' :: l1 =>
    let mi := l1.takeWhile Char.isDigit
    if mi.length ≠ 2 ∨ l1.drop 2 ≠ [] then none else
    some (digitsVal hr, digitsVal mi)
  | _ => none

/-- `parseDeliveryPlatform2DateTime`: combine a `YYYY-M-D` date string and
an `H:MM` time string; `null` when either is missing or malformed. -/
def parseDeliveryPlatform2DateTime (dateValue timeValue : String) : Option DateV :=
  if dateValue = "" ∨ timeValue = "" then none
  else
    match dp2DateMatch dateValue.toList, dp2TimeMatch timeValue.toList with
    | some (yr, mo, day), some (hr, mi) =>
        some ⟨(yr : Int), (mo : Int) - 1, (day : Int), (hr : Int), (mi : Int), 0⟩
    | _, _ => none

/-- `deliveryType`: case-insensitive map with `UNKNOWN` default. -/
def deliveryType (v : OptStr) : String :=
  match v with
  | none => "UNKNOWN"
  | some s =>
      let low := jsToLower s
      if low = "delivery" then "DELIVERY"
      else if low = "collection" then "COLLECTION"
      else if low = "pickup" then "PICKUP"
      else "UNKNOWN"

/-- `deliveryPlatform1OrderStatus`. -/
def deliveryPlatform1OrderStatus (v : OptStr) : String :=
  match v with
  | none => "REJECTED"
  | some s =>
      let low := jsToLower s
      if low = "completed" then "COMPLETED"
      else if low = "canceled" then "REJECTED_CUSTOMER"
      else "REJECTED"

/-- `deliveryPlatform1Boolean`: `parseBoolean(value, '1')`. -/
def deliveryPlatform1Boolean (v : OptStr) : Bool := parseBoolean v "1"

/-- `deliveryPlatform1CancelledBy`: `existsOrEmpty`. -/
def deliveryPlatform1CancelledBy (v : OptStr) : String := existsOrEmpty v

/-- `deliveryPlatform3OrderStatus`: `existsOrEmpty`. -/
def deliveryPlatform3OrderStatus (v : OptStr) : String := existsOrEmpty v

/-- `deliveryPlatform2AcceptStatus`: `'on'` (case-insensitive) maps to
`'accepted'`; a numeric value to `parsePercentage`; else `existsOrDefault`. -/
def deliveryPlatform2AcceptStatus (v : OptStr) : String :=
  let isOn : Bool := match v with
    | some s => jsToLower s == "on"
    | none => false
  if isOn then "accepted"
  else
    match jsParseFloatList ((v.getD "undefined").toList) with
    | some _ => parsePercentage v
    | none => existsOrDefault v

end Ingest

namespace Ingest

/-- The names registered in the `runTransformation` dispatcher. -/
def knownTransformNames : List String :=
  ["existsOrEmpty", "existsOrDefault", "parseBoolean", "parsePercentage",
   "timeToMinutes", "parseDate", "parseDeliveryPlatform2Time",
   "parseDeliveryPlatform2DateTime", "deliveryType",
   "deliveryPlatform1OrderStatus", "deliveryPlatform1Boolean",
   "deliveryPlatform1CancelledBy", "deliveryPlatform3OrderStatus",
   "deliveryPlatform2AcceptStatus"]

/-- `DataTransforms.runTransformation` (src/transforms.ts lines 172–210):
the name-keyed dispatcher.  An unregistered name returns the raw value
unchanged.  `gp` is the behaviour of `new Date(string)`. -/
def runTransformation (gp : String → Option DateV) (value : OptStr)
    (transformName : String) : Except IngestError JSVal :=
  if transformName = "existsOrEmpty" then .ok (.str (existsOrEmpty value))
  else if transformName = "existsOrDefault" then .ok (.str (existsOrDefault value))
  else if transformName = "parseBoolean" then .ok (.bool (parseBoolean value))
  else if transformName = "parsePercentage" then .ok (.str (parsePercentage value))
  else if transformName = "timeToMinutes" then
    (timeToMinutes value).map (fun r => match r with
      | some n => .num (n : ℚ)
      | none => .null)
  else if transformName = "parseDate" then
    (parseDate gp value).map (fun r => match r with
      | some d => .date d
      | none => .null)
  else if transformName = "parseDeliveryPlatform2Time" then
    .ok (.str (parseDeliveryPlatform2Time value))
  else if transformName = "parseDeliveryPlatform2DateTime" then
    -- the dispatcher only has one value here, so the code calls parseDate
    (parseDate gp value).map (fun r => match r with
      | some d => .date d
      | none => .null)
  else if transformName = "deliveryType" then .ok (.str (deliveryType value))
  else if transformName = "deliveryPlatform1OrderStatus" then
    .ok (.str (deliveryPlatform1OrderStatus value))
  else if transformName = "deliveryPlatform1Boolean" then
    .ok (.bool (deliveryPlatform1Boolean value))
  else if transformName = "deliveryPlatform1CancelledBy" then
    .ok (.str (deliveryPlatform1CancelledBy value))
  else if transformName = "deliveryPlatform3OrderStatus" then
    .ok (.str (deliveryPlatform3OrderStatus value))
  else if transformName = "deliveryPlatform2AcceptStatus" then
    .ok (.str (deliveryPlatform2AcceptStatus value))
  else .ok (jsOfOptStr value)

/-! ### Integration configuration (src/types.ts) -/

/-- `FieldMap.type` (the `default` switch branch also covers `'string'`
and an absent type). -/
inductive FieldType where
  | string
  | number
  | boolean
  | date
  | enum
deriving DecidableEq, Repr

/-- `FieldMap` (src/types.ts): one column's mapping rule. -/
structure FieldMap where
  target : String
  type : Option FieldType := none
  enum_values : Option (List String) := none
  transform : Option String := none
  required : Bool := false
  default : Option JSVal := none
deriving DecidableEq, Repr

/-- `Integration` (src/types.ts): a named field-mapping configuration.
`field_mapping` keeps JS object insertion order (`Object.entries`). -/
structure Integration where
  id : Nat
  name : String
  platform_id : Nat
  field_mapping : List (String × FieldMap)
  tables : List String
  is_active : Bool
deriving DecidableEq, Repr

/-- A normalized record: a JS object as an insertion-ordered association
list with overwriting assignment. -/
abbrev RecV := List (String × JSVal)

/-- Property read (`undefined` for an absent key). -/
def getField (r : RecV) (k : String) : JSVal :=
  match r.find? (fun p => p.1 = k) with
  | some p => p.2
  | none => .undefinedV

/-- Property assignment: overwrite in place, else append. -/
def setField (r : RecV) (k : String) (v : JSVal) : RecV :=
  if r.any (fun p => p.1 = k) then
    r.map (fun p => if p.1 = k then (k, v) else p)
  else r ++ [(k, v)]

/-- `delete r[k]`. -/
def delField (r : RecV) (k : String) : RecV := r.filter (fun p => p.1 ≠ k)

end Ingest

namespace Ingest

/-- `transformEnum` (src/ingestion-engine.ts lines 212–221):
case-insensitive match against `enum_values`, returning the canonical
enum value, else the raw value unchanged. -/
def transformEnum (value : OptStr) (fm : FieldMap) : JSVal :=
  match fm.enum_values with
  | none => jsOfOptStr value
  | some evs =>
      let normalized : Option String := value.map jsToLower
      match evs.find? (fun ev => some (jsToLower ev) = normalized) with
      | some m => if m = "" then jsOfOptStr value else .str m
      | none => jsOfOptStr value

/-- `applyTransform` (src/ingestion-engine.ts lines 174–206): default for
an empty/falsy raw value, else the named transform, else coercion by
declared type. -/
def applyTransform (gp : String → Option DateV) (value : OptStr)
    (fm : FieldMap) : Except IngestError JSVal :=
  if ¬ optTruthy value ∧ fm.default.isSome then .ok (fm.default.getD .undefinedV)
  else
    match fm.transform with
    | some tname => runTransformation gp value tname
    | none =>
      match fm.type with
      | some .number =>
          if ¬ optTruthy value then .ok .null
          else
            let stripped := (value.getD "").toList.filter
              (fun c => c.isDigit ∨ c = '.' ∨ c = '-')
            match jsParseFloatList stripped with
            | none => .ok .null
            | some q => .ok (.num q)
      | some .boolean =>
          if ¬ optTruthy value then .ok (.bool false)
          else
            let low := jsToLower (value.getD "")
            .ok (.bool (low = "on" ∨ low = "true" ∨ low = "1"))
      | some .date =>
          if ¬ optTruthy value then .ok .null
          else
            match gp (value.getD "") with
            | none => .ok .null
            | some d => .ok (.date d)
      | some .enum => .ok (transformEnum value fm)
      | _ =>
          match value with
          | none => .ok .null
          | some s =>
              if s = "" then .ok .null
              else if jsTrim s = "" then .ok .null
              else .ok (.str (jsTrim s))

/-- `result.order_status_raw?.toLowerCase()` (optional chaining; a
non-string value is treated as no match). -/
def rawStatusLower (v : JSVal) : Option String :=
  match v with
  | .str s => some (jsToLower s)
  | _ => none

/-- `x && x > 0` on a record field (JS `>` coerces; only numeric values
compare greater than zero here). -/
def jsGtZero : JSVal → Bool
  | .num q => 0 < q
  | .bool b => b
  | .str s =>
      let t := trimList s.toList
      if t = [] then false
      else match jsParseFloatList t with
        | some q => 0 < q
        | none => false
  | _ => false

/-- `determineOrderStatus` (src/ingestion-engine.ts lines 223–259): the
per-integration status decision table; unrecognized integration names
default to `'ACCEPTED'`. -/
def determineOrderStatus (result : RecV) (integ : Integration) : JSVal :=
  if integ.name = "deliveryplatform1_order_history" then
    if truthy (getField result "order_status") then getField result "order_status"
    else if truthy (getField result "cancelled_by") then
      (if getField result "cancelled_by" = .str "customer" then
        .str "CANCELLED_CUSTOMER" else .str "CANCELLED_RESTAURANT")
    else if truthy (getField result "completed_flag") then .str "COMPLETED"
    else .str "REJECTED"
  else if integ.name = "deliveryplatform3_total_order" then
    let customerCancelled :=
      jsParseIntVal (jsOr (getField result "customer_cancelled_count") (.str "0"))
    let partnerCancelled :=
      jsParseIntVal (jsOr (getField result "partner_cancelled_count") (.str "0"))
    if optGtZero customerCancelled then .str "CANCELLED_CUSTOMER"
    else if optGtZero partnerCancelled then .str "CANCELLED_RESTAURANT"
    else
      match rawStatusLower (getField result "order_status_raw") with
      | some st =>
          if st = "good" then .str "COMPLETED"
          else if st = "bad" then .str "REJECTED"
          else .str "ACCEPTED"
      | none => .str "ACCEPTED"
  else if integ.name = "deliveryplatform2_business_segments" then
    if truthy (getField result "prep_time_minutes") ∧
       jsGtZero (getField result "prep_time_minutes") then .str "ACCEPTED"
    else .str "COMPLETED"
  else .str "ACCEPTED"

end Ingest

namespace Ingest

/-- Raw-record read: `raw[csvField]` (`undefined` if the column is absent). -/
def rawGet (raw : List (String × String)) (k : String) : OptStr :=
  (raw.find? (fun p => p.1 = k)).map (fun p => p.2)

/-- The per-field loop of `transform` (src/ingestion-engine.ts lines
139–152): apply each field's pipeline in configuration order, rejecting
the whole record (result `none`) when a required field's transformed value
is empty/null/undefined. -/
def transformFields (gp : String → Option DateV) (raw : List (String × String)) :
    List (String × FieldMap) → RecV → Except IngestError (Option RecV)
  | [], acc => .ok (some acc)
  | (csvField, fm) :: rest, acc =>
      match applyTransform gp (rawGet raw csvField) fm with
      | .error e => .error e
      | .ok tv =>
          if fm.required ∧ jsEmptyish tv then .ok none
          else transformFields gp raw rest (setField acc fm.target tv)

/-- Two-digit zero padding for the ISO date part. -/
def pad2 (n : Int) : String :=
  if 0 ≤ n ∧ n < 10 then "0" ++ toString n else toString n

/-- `date.toISOString().split('T')[0]` on the Date model (time-zone
conversion is not modelled). -/
def isoDatePart (d : DateV) : String :=
  toString d.year ++ "-" ++ pad2 (d.monthIndex + 1) ++ "-" ++ pad2 d.day

/-- The string the DeliveryPlatform2 fixup hands to
`parseDeliveryPlatform2DateTime` as date value. -/
def dp2DateArg (v : JSVal) : String :=
  match v with
  | .date d => isoDatePart d
  | .str s => s
  | _ => ""

/-- `transform` (src/ingestion-engine.ts lines 134–172): the Field Mapper.
Starts from `{platform_id}`, runs the per-field loop, applies the
DeliveryPlatform2 date/time fixup, then for `orders` integrations derives
`order_status` and drops records without a `platform_order_id`. -/
def transform (gp : String → Option DateV) (raw : List (String × String))
    (integ : Integration) : Except IngestError (Option RecV) :=
  let init : RecV := [("platform_id", .num (integ.platform_id : ℚ))]
  match transformFields gp raw integ.field_mapping init with
  | .error e => .error e
  | .ok none => .ok none
  | .ok (some r0) =>
      let r1 :=
        if integ.name = "deliveryplatform2_business_segments" ∧
           truthy (getField r0 "order_datetime") ∧
           truthy (getField r0 "order_time") then
          let dateValue := dp2DateArg (getField r0 "order_datetime")
          let timeValue := dp2DateArg (getField r0 "order_time")
          let combined : JSVal :=
            match parseDeliveryPlatform2DateTime dateValue timeValue with
            | some d => .date d
            | none => .null
          delField (setField r0 "order_datetime" combined) "order_time"
        else r0
      if integ.tables.contains "orders" then
        let r2 := setField r1 "order_status" (determineOrderStatus r1 integ)
        if ¬ truthy (getField r2 "platform_order_id") then .ok none
        else .ok (some r2)
      else .ok (some r1)

/-- `parseCSVLine` (src/ingestion-engine.ts lines 107–132): the character
loop with its `inQuotes` flag and field accumulator.  Every pushed field
is trimmed; a doubled quote inside quotes yields one literal quote; commas
inside quotes do not split. -/
def parseCSVAux (inQ : Bool) (cur : List Char) : List Char → List (List Char)
  | [] => [trimList cur]
  | c :: rest =>
      if c = '"' then
        if inQ then
          match rest with
          | c2 :: rest2 =>
              if c2 = '"' then parseCSVAux true (cur ++ ['"']) rest2
              else parseCSVAux false cur (c2 :: rest2)
          | [] => parseCSVAux false cur []
        else parseCSVAux true cur rest
      else if c = ',' then
        if inQ then parseCSVAux true (cur ++ [',']) rest
        else trimList cur :: parseCSVAux false [] rest
      else parseCSVAux inQ (cur ++ [c]) rest

/-- `parseCSVLine` on strings. -/
def parseCSVLine (line : String) : List String :=
  (parseCSVAux false [] line.toList).map String.mk

/-- The header row as the stream uses it: parsed fields trimmed a second
time (src/ingestion-engine.ts line 54). -/
def headerNames (line : String) : List String :=
  (parseCSVLine line).map jsTrim

end Ingest

namespace Ingest

/-! ### The storage collaborator (src/database.ts), as explicit state -/

/-- A row of `restaurants`. -/
structure RestaurantRow where
  id : Nat
  name : String
  platform_id : Nat
  external_id : Option String
deriving DecidableEq, Repr

/-- A row of `orders` (the typed payload `processRecord` builds). -/
structure OrderRow where
  id : Nat
  platform_id : Nat
  platform_order_id : String
  restaurant_id : Nat
  order_status : JSVal
  delivery_type : JSVal
  order_value : Option ℚ
  basket_size : Option ℚ
  discount_amount : Option ℚ
  order_datetime : Option DateV
  restaurant_wait_time_minutes : Option ℚ
  total_delivery_time_minutes : Option ℚ
  courier_wait_time_minutes : Option ℚ
  prep_time_minutes : Option ℚ
  currency_code : JSVal
  auto_accept_status : JSVal
deriving DecidableEq, Repr

/-- A row of `ratings` (`rating_date` is always NULL from the engine and
is omitted). -/
structure RatingRow where
  platform_order_id : Option String
  restaurant_id : Nat
  platform_id : Nat
  rating_value : ℚ
  rating_type : String
  comment : JSVal
deriving DecidableEq, Repr

/-- A row of `ingestion_jobs` (`status` defaults to `'pending'`). -/
structure JobRow where
  id : Nat
  integration_id : Nat
  file_path : String
  status : String
  total_rows : Int
  processed_rows : Int
  inserted_rows : Int
  error_rows : Int
  error_message : Option String
deriving DecidableEq, Repr

/-- A row of `data_source_files` (the dedup ledger, unique on
`(integration_id, file_hash)`). -/
structure ProcessedFileRow where
  integration_id : Nat
  file_path : String
  file_hash : String
  total_rows : Int
  job_id : Nat
deriving DecidableEq, Repr

/-- The relational store. -/
structure DB where
  integrations : List Integration
  restaurants : List RestaurantRow
  orders : List OrderRow
  ratings : List RatingRow
  jobs : List JobRow
  processedFiles : List ProcessedFileRow
  nextRestaurantId : Nat
  nextOrderId : Nat
  nextJobId : Nat
deriving DecidableEq, Repr

/-- `getIntegrationByName`: first active integration with that name. -/
def getIntegrationByName (db : DB) (name : String) : Option Integration :=
  db.integrations.find? (fun i => i.name = name ∧ i.is_active)

/-- The match score of `getIntegrationByHeaders`: the fraction of the
integration's field-mapping keys present in the headers (`0/0 = NaN`
compares false against the threshold, as does `ℚ`'s `0/0 = 0`). -/
def scoreOf (headers : List String) (integ : Integration) : ℚ :=
  let keys := integ.field_mapping.map (fun p => p.1)
  let matchCount := (keys.filter (fun k => headers.contains k)).length
  (matchCount : ℚ) / (keys.length : ℚ)

/-- One step of the best-match fold in `getIntegrationByHeaders`
(src/database.ts lines 252–261): take an integration only when its score
is both above the 0.7 threshold and strictly above the best so far. -/
def pickBestStep (headers : List String) (acc : Option Integration × ℚ)
    (integ : Integration) : Option Integration × ℚ :=
  if scoreOf headers integ > 7/10 ∧ scoreOf headers integ > acc.2 then
    (some integ, scoreOf headers integ)
  else acc

/-- `getIntegrationByHeaders` (src/database.ts lines 241–268), on the
active integrations in select order.  (The in-memory memoisation cache is
omitted: it only replays a previous answer.) -/
def getIntegrationByHeaders (db : DB) (headers : List String) : Option Integration :=
  ((db.integrations.filter (fun i => i.is_active)).foldl
    (pickBestStep headers) (none, 0)).1

/-- `isFileProcessed` (src/database.ts lines 270–276): the SQL predicate
looks only at `(integration_id, file_hash)`; the `filePath` argument is
ignored. -/
def isFileProcessed (db : DB) (integrationId : Nat) (filePath : String)
    (fileHash : String) : Bool :=
  let _ := filePath
  db.processedFiles.any
    (fun pf => pf.integration_id = integrationId ∧ pf.file_hash = fileHash)

/-- `createJob`: insert a job with default status `'pending'` and zero
counters, returning the fresh id. -/
def createJob (db : DB) (integrationId : Nat) (filePath : String)
    (totalRows : Int) : Nat × DB :=
  (db.nextJobId,
   { db with
      jobs := db.jobs ++
        [⟨db.nextJobId, integrationId, filePath, "pending", totalRows, 0, 0, 0, none⟩],
      nextJobId := db.nextJobId + 1 })

/-- `x || null` applied to a numeric stat before it is bound in the
`updateJob` query (0 becomes SQL NULL). -/
def jsOrNullInt (n : Int) : Option Int := if n = 0 then none else some n

/-- `updateJob` (src/database.ts lines 286–311): `status` is always set;
the numeric stats and the error message use `COALESCE` (a NULL argument
keeps the stored value). -/
def updateJob (db : DB) (jobId : Nat) (status : String)
    (totalRows processedRows insertedRows errorRows : Option Int)
    (errorMessage : Option String) : DB :=
  { db with
    jobs := db.jobs.map (fun j =>
      if j.id = jobId then
        { j with
          status := status
          total_rows := totalRows.getD j.total_rows
          processed_rows := processedRows.getD j.processed_rows
          inserted_rows := insertedRows.getD j.inserted_rows
          error_rows := errorRows.getD j.error_rows
          error_message := match errorMessage with
            | some m => some m
            | none => j.error_message }
      else j) }

/-- `recordProcessedFile`: insert the dedup-ledger row. -/
def recordProcessedFile (db : DB) (integrationId : Nat) (filePath : String)
    (fileHash : String) (totalRows : Int) (jobId : Nat) : DB :=
  { db with
    processedFiles := db.processedFiles ++
      [⟨integrationId, filePath, fileHash, totalRows, jobId⟩] }

end Ingest

namespace Ingest

/-- `Validators.isValidString` on a definite string. -/
def stringValid (s : String) : Bool := jsTrim s ≠ ""

/-- `String(x)` as used on record fields.  Number formatting is exact for
integral values; non-integral and date values are approximated (no claim
depends on them). -/
def jsToString : JSVal → String
  | .str s => s
  | .num q => if q.den = 1 then toString q.num else toString q
  | .bool b => if b then "true" else "false"
  | .null => "null"
  | .undefinedV => "undefined"
  | .date _ => "[Date]"

/-- `typeof x === 'number' ? x : null`. -/
def asNum : JSVal → Option ℚ
  | .num q => some q
  | _ => none

/-- `x instanceof Date ? x : null`. -/
def asDate : JSVal → Option DateV
  | .date d => some d
  | _ => none

/-- `x && typeof x === 'string' ? x : undefined` (a non-empty string). -/
def asNonEmptyStr : JSVal → Option String
  | .str s => if s = "" then none else some s
  | _ => none

/-- `upsertRestaurant` (src/database.ts lines 25–90): validate the name,
look up by `(platform_id, external_id)` (updating the name), then by
`(platform_id, name)` (updating the external id), else insert. -/
def upsertRestaurant (db : DB) (name : String) (platformId : Nat)
    (externalId : Option String) : Except IngestError (Nat × DB) :=
  if ¬ stringValid name then
    .error (.databaseError "Restaurant name is required and must be a non-empty string")
  else
    let extProvided : Option String :=
      match externalId with
      | some e => if jsTrim e ≠ "" then some e else none
      | none => none
    let byExt : Option RestaurantRow :=
      match extProvided with
      | some ext => db.restaurants.find?
          (fun r => r.platform_id = platformId ∧ r.external_id = some ext)
      | none => none
    match byExt with
    | some r =>
        .ok (r.id,
          { db with restaurants := (db.restaurants.map
              (fun r2 => if r2.id = r.id then { r2 with name := name } else r2)) })
    | none =>
        match db.restaurants.find?
            (fun r => r.platform_id = platformId ∧ r.name = name) with
        | some r =>
            let db1 :=
              match extProvided with
              | some ext =>
                  { db with restaurants := (db.restaurants.map
                      (fun r2 => if r2.id = r.id then
                        { r2 with external_id := some ext } else r2)) }
              | none => db
            .ok (r.id, db1)
        | none =>
            .ok (db.nextRestaurantId,
              { db with
                restaurants := db.restaurants ++
                  [⟨db.nextRestaurantId, name, platformId, extProvided⟩],
                nextRestaurantId := db.nextRestaurantId + 1 })

/-- `upsertOrder` (src/database.ts lines 136–204): validate
`platform_order_id`, then insert or update on conflict of
`(platform_id, platform_order_id)`.  The `id` field of the argument is a
placeholder; the store assigns it. -/
def upsertOrder (db : DB) (od : OrderRow) : Except IngestError (Nat × DB) :=
  if ¬ stringValid od.platform_order_id then
    .error (.databaseError "Platform order ID is required and must be a non-empty string")
  else
    match db.orders.find? (fun o =>
        o.platform_id = od.platform_id ∧
        o.platform_order_id = od.platform_order_id) with
    | some o =>
        .ok (o.id,
          { db with orders := (db.orders.map
              (fun o2 => if o2.id = o.id then { od with id := o.id } else o2)) })
    | none =>
        .ok (db.nextOrderId,
          { db with
            orders := db.orders ++ [{ od with id := db.nextOrderId }],
            nextOrderId := db.nextOrderId + 1 })

/-- The rating payload `processRecord` builds. -/
structure RatingData where
  platform_order_id : String
  rating_value : ℚ
  rating_type : String
  comment : JSVal
deriving DecidableEq, Repr

/-- `upsertRating` (src/database.ts lines 206–237): update the first row
matching `(platform_id, platform_order_id, rating_type)`, else insert
(`platform_order_id || null`). -/
def upsertRating (db : DB) (rd : RatingData) (restaurantId platformId : Nat) : DB :=
  let insert : DB :=
    { db with ratings := db.ratings ++
        [⟨(if rd.platform_order_id = "" then none else some rd.platform_order_id),
          restaurantId, platformId, rd.rating_value, rd.rating_type, rd.comment⟩] }
  if rd.platform_order_id ≠ "" then
    match db.ratings.find? (fun rt =>
        rt.platform_id = platformId ∧
        rt.platform_order_id = some rd.platform_order_id ∧
        rt.rating_type = rd.rating_type) with
    | some rt =>
        { db with ratings := db.ratings.map (fun rt2 =>
            if rt2 = rt then
              { rt2 with rating_value := rd.rating_value, comment := rd.comment }
            else rt2) }
    | none => insert
  else insert

end Ingest

namespace Ingest

/-- The error wrapping of `processRecord`'s catch block: a
`ProcessingError` is rethrown; anything else becomes
`ProcessingError('Failed to process record')` with the integration name
in its context. -/
def wrapRecordError (e : IngestError) (integName : String) : IngestError :=
  match e with
  | .processingError m v => .processingError m v
  | _ => .processingError "Failed to process record" integName

/-- The `orders` payload built in `processRecord`
(src/ingestion-engine.ts lines 283–299). -/
def buildOrderData (record : RecV) (integ : Integration)
    (restaurantId : Nat) : OrderRow :=
  { id := 0
    platform_id := integ.platform_id
    platform_order_id := jsToString (getField record "platform_order_id")
    restaurant_id := restaurantId
    order_status := jsOr (getField record "order_status") (.str "ACCEPTED")
    delivery_type := jsOr (getField record "delivery_type") (.str "UNKNOWN")
    order_value := asNum (getField record "order_value")
    basket_size := asNum (getField record "basket_size")
    discount_amount := asNum (getField record "discount_amount")
    order_datetime := asDate (getField record "order_datetime")
    restaurant_wait_time_minutes := asNum (getField record "restaurant_wait_time_minutes")
    total_delivery_time_minutes := asNum (getField record "total_delivery_time_minutes")
    courier_wait_time_minutes := asNum (getField record "courier_wait_time_minutes")
    prep_time_minutes := asNum (getField record "prep_time_minutes")
    currency_code := jsOr (getField record "currency_code") (.str "GBP")
    auto_accept_status := jsOr (getField record "auto_accept_status") .null }

/-- The ratings step of `processRecord` (src/ingestion-engine.ts lines
305–320). -/
def processRecordRatings (db : DB) (record : RecV) (integ : Integration)
    (restaurantId : Nat) : DB :=
  match asNum (getField record "rating_value") with
  | some q =>
      if integ.tables.contains "ratings" ∧ 0 < restaurantId then
        upsertRating db
          ⟨jsToString (getField record "platform_order_id"), q, "overall",
           jsOr (getField record "comment") .null⟩
          restaurantId integ.platform_id
      else db
  | none => db

/-- The orders-and-ratings tail of `processRecord` after the restaurant
upsert. -/
def processRecordTables (db : DB) (record : RecV) (integ : Integration)
    (restaurantId : Nat) : DB × Except IngestError Unit :=
  if integ.tables.contains "orders" then
    match upsertOrder db (buildOrderData record integ restaurantId) with
    | .error e => (db, .error (wrapRecordError e integ.name))
    | .ok (_, db1) => (processRecordRatings db1 record integ restaurantId, .ok ())
  else (processRecordRatings db record integ restaurantId, .ok ())

/-- `processRecord` (src/ingestion-engine.ts lines 261–332): upsert the
restaurant when a non-empty `restaurant_name` string is present, then the
order (for `orders` integrations), then the rating (for `ratings`
integrations with a numeric `rating_value` and a real restaurant).
State mutated before a failure survives it. -/
def processRecord (db : DB) (record : RecV) (integ : Integration) :
    DB × Except IngestError Unit :=
  match asNonEmptyStr (getField record "restaurant_name") with
  | some restaurantName =>
      let extId : Option String := asNonEmptyStr (getField record "restaurant_external_id")
      match upsertRestaurant db restaurantName integ.platform_id extId with
      | .error e => (db, .error (wrapRecordError e integ.name))
      | .ok (rid, db1) => processRecordTables db1 record integ rid
  | none => processRecordTables db record integ 0

/-- `record[h] = fields[i] || ''` assignment into a JS object. -/
def setAssocStr (r : List (String × String)) (k v : String) :
    List (String × String) :=
  if r.any (fun p => p.1 = k) then
    r.map (fun p => if p.1 = k then (k, v) else p)
  else r ++ [(k, v)]

/-- The raw record of one data line (src/ingestion-engine.ts lines 79–81):
each header keyed to the corresponding field, missing fields as `''`. -/
def buildRecord (headers fields : List String) : List (String × String) :=
  headers.enum.foldl (fun acc p => setAssocStr acc p.2 (fields.getD p.1 "")) []

/-- The outcome the stream reports. -/
structure StreamResult where
  processed : Nat
  skipped : Nat
deriving DecidableEq, Repr

/-- The data-row loop of `stream` (src/ingestion-engine.ts lines 49–104)
after the header row established `integ` and `jobId`: parse, map, either
skip (mapper returned null), persist, or abort on the first error; at end
of input mark the job completed and write the dedup-ledger row.
`lineCount` starts at 1 (the header). -/
def streamLoop (gp : String → Option DateV) (db : DB) (integ : Integration)
    (jobId : Nat) (headers : List String) (path fileHash : String) :
    List String → Nat → Nat → Nat → DB × Except IngestError StreamResult
  | [], processed, skipped, lineCount =>
      let dataRows : Int := (lineCount : Int) - 1
      let db1 := updateJob db jobId "completed"
        (jsOrNullInt dataRows) (jsOrNullInt (processed : Int))
        (jsOrNullInt (processed : Int)) (jsOrNullInt (skipped : Int)) none
      let db2 := recordProcessedFile db1 integ.id path fileHash dataRows jobId
      (db2, .ok ⟨processed, skipped⟩)
  | line :: rest, processed, skipped, lineCount =>
      let fields := parseCSVLine line
      let record := buildRecord headers fields
      match transform gp record integ with
      | .error e => (db, .error e)
      | .ok none =>
          streamLoop gp db integ jobId headers path fileHash
            rest processed (skipped + 1) (lineCount + 1)
      | .ok (some rec) =>
          match processRecord db rec integ with
          | (db1, .error e) => (db1, .error e)
          | (db1, .ok _) =>
              streamLoop gp db1 integ jobId headers path fileHash
                rest (processed + 1) skipped (lineCount + 1)

/-- The header-row integration binding (src/ingestion-engine.ts lines
56–58): the explicit key when given, else header detection. -/
def resolveIntegration (db : DB) (integrationKey : Option String)
    (headers : List String) : Option Integration :=
  match integrationKey with
  | some key => getIntegrationByName db key
  | none => getIntegrationByHeaders db headers

/-- `stream` (src/ingestion-engine.ts lines 37–105): resolve the
integration from the header row (or the explicit key), dedup-check the
content hash (the `filePath` argument of `isFileProcessed` is passed as
`''`), create the job, then run the data-row loop.  A file with no lines
returns `{processed: 0, skipped: 0}` without touching the store. -/
def stream (gp : String → Option DateV) (db : DB) (lines : List String)
    (path fileHash : String) (integrationKey : Option String) :
    DB × Except IngestError StreamResult :=
  match lines with
  | [] => (db, .ok ⟨0, 0⟩)
  | headerLine :: rest =>
      let headers := headerNames headerLine
      match resolveIntegration db integrationKey headers with
      | none =>
          (db, .error (.validationError
            (match integrationKey with
             | some key => "Integration not found: " ++ key
             | none => "Could not detect integration")))
      | some integ =>
          if isFileProcessed db integ.id "" fileHash then (db, .ok ⟨0, 0⟩)
          else
            let jobAndDb := createJob db integ.id path 0
            streamLoop gp jobAndDb.2 integ jobAndDb.1 headers path fileHash
              rest 0 0 1

/-- `processFile` (src/ingestion-engine.ts lines 12–35) at the level the
claims speak about: the content hash is a function of the file's bytes
alone (`hashFn` stands for streaming SHA-256 of the content), never of its
path; then `stream` runs.  Filesystem validation and the log lines are not
modelled. -/
def processFileRun (gp : String → Option DateV) (hashFn : List String → String)
    (db : DB) (lines : List String) (path : String)
    (integrationKey : Option String) : DB × Except IngestError StreamResult :=
  stream gp db lines path (hashFn lines) integrationKey

end Ingest

/-! ### Lemmas: trimming and CSV parsing -/
namespace Ingest

theorem dropWhile_head_not (p : Char → Bool) (l : List Char) (a : Char)
    (h : (l.dropWhile p).head? = some a) : p a = false := by
  induction l with
  | nil => simp [List.dropWhile] at h
  | cons x xs ih =>
      rw [List.dropWhile_cons] at h
      by_cases hp : p x
      · simp [hp] at h; exact ih h
      · simp [hp] at h; subst h; simpa using hp

theorem trimLeft_idem (l : List Char) : trimLeft (trimLeft l) = trimLeft l :=
  List.dropWhile_idempotent isWs l

theorem trimRight_idem (l : List Char) : trimRight (trimRight l) = trimRight l := by
  unfold trimRight
  rw [List.reverse_reverse, List.dropWhile_idempotent]

theorem trimRight_append (l : List Char) :
    trimRight l ++ (l.reverse.takeWhile isWs).reverse = l := by
  unfold trimRight
  rw [← List.reverse_append, List.takeWhile_append_dropWhile, List.reverse_reverse]

theorem trimLeft_of_trimRight_of_fixed (l : List Char) (hfix : trimLeft l = l) :
    trimLeft (trimRight l) = trimRight l := by
  cases htr : trimRight l with
  | nil => rfl
  | cons a t =>
      have happ := trimRight_append l
      rw [htr] at happ
      have hhead : l.head? = some a := by rw [← happ]; rfl
      have hws : isWs a = false := by
        apply dropWhile_head_not isWs l a
        have : l.dropWhile isWs = l := hfix
        rw [this]
        exact hhead
      show (a :: t).dropWhile isWs = a :: t
      rw [List.dropWhile_cons]
      simp [hws]

theorem trimList_idem (l : List Char) : trimList (trimList l) = trimList l := by
  unfold trimList
  rw [trimLeft_of_trimRight_of_fixed (trimLeft l) (trimLeft_idem l), trimRight_idem]

end Ingest
namespace Ingest
theorem parseCSVAux_trimmed (inQ : Bool) (cur line : List Char) :
    ∀ f ∈ parseCSVAux inQ cur line, ∃ g, f = trimList g := by
  induction inQ, cur, line using parseCSVAux.induct with
  | case1 inQ cur =>
      intro f hf; rw [parseCSVAux.eq_def] at hf; simp at hf; exact ⟨cur, hf⟩
  | case2 cur rest2 ih =>
      intro f hf; rw [parseCSVAux.eq_def] at hf; simp at hf; exact ih f hf
  | case3 cur c2 rest2 h ih =>
      intro f hf; rw [parseCSVAux.eq_def] at hf; simp [h] at hf; exact ih f hf
  | case4 cur ih =>
      intro f hf; rw [parseCSVAux.eq_def] at hf; simp at hf; exact ih f hf
  | case5 inQ cur rest h ih =>
      intro f hf
      have hq : inQ = false := by simpa using h
      subst hq
      rw [parseCSVAux.eq_def] at hf; simp at hf
      exact ih f hf
  | case6 cur rest h ih =>
      intro f hf; rw [parseCSVAux.eq_def] at hf; simp at hf; exact ih f hf
  | case7 inQ cur rest h1 h2 ih =>
      intro f hf
      have hq : inQ = false := by simpa using h1
      subst hq
      rw [parseCSVAux.eq_def] at hf; simp at hf
      rcases hf with hf | hf
      · exact ⟨cur, hf⟩
      · exact ih f hf
  | case8 inQ cur c rest h1 h2 ih =>
      intro f hf
      rw [parseCSVAux.eq_def] at hf; simp [h1, h2] at hf
      exact ih f hf
end Ingest
namespace Ingest

theorem toList_mk (l : List Char) : (String.mk l).toList = l := rfl

theorem map_eq_self_of_mem {α : Type} (l : List α) (f : α → α)
    (h : ∀ a ∈ l, f a = a) : l.map f = l := by
  induction l with
  | nil => rfl
  | cons a t ih =>
      simp only [List.map_cons]
      rw [h a (by simp), ih (fun b hb => h b (by simp [hb]))]

/-- C10: `parseCSVLine` trims every field it returns (also inside quotes),
splits only on commas outside quotes, collapses a doubled quote to one
literal quote, and the header row is trimmed a second time (a no-op). -/
theorem claim_C10 :
    (∀ line f, f ∈ parseCSVLine line → jsTrim f = f) ∧
    (∀ line, headerNames line = (parseCSVLine line).map jsTrim) ∧
    (∀ line, headerNames line = parseCSVLine line) ∧
    parseCSVLine "a, \" b , c \" ,d" = ["a", "b , c", "d"] ∧
    parseCSVLine "\"a\"\"b\",x" = ["a\"b", "x"] := by
  have h1 : ∀ line f, f ∈ parseCSVLine line → jsTrim f = f := by
    intro line f hf
    unfold parseCSVLine at hf
    rcases List.mem_map.mp hf with ⟨l, hl, rfl⟩
    rcases parseCSVAux_trimmed false [] line.toList l hl with ⟨g, rfl⟩
    show String.mk (trimList (String.mk (trimList g)).toList) = String.mk (trimList g)
    rw [toList_mk, trimList_idem]
  exact ⟨h1, fun line => rfl,
    fun line => map_eq_self_of_mem (parseCSVLine line) jsTrim (h1 line),
    by decide, by decide⟩

/-- Witness for C10 at a concrete line and field. -/
theorem claim_C10_witness :
    ("b , c" ∈ parseCSVLine "a, \" b , c \" ,d") ∧ jsTrim "b , c" = "b , c" :=
  ⟨by decide, claim_C10.1 "a, \" b , c \" ,d" "b , c" (by decide)⟩
end Ingest
namespace Ingest

/-! ### Lemmas: the best-match fold of getIntegrationByHeaders -/

theorem pickBestStep_eq (hs : List String) (acc : Option Integration × ℚ)
    (i : Integration) :
    pickBestStep hs acc i =
      if scoreOf hs i > 7/10 ∧ scoreOf hs i > acc.2 then (some i, scoreOf hs i)
      else acc := rfl

theorem pickBest_snd_mono (hs : List String) (L : List Integration)
    (acc : Option Integration × ℚ) :
    acc.2 ≤ (L.foldl (pickBestStep hs) acc).2 := by
  induction L generalizing acc with
  | nil => exact le_refl _
  | cons i L ih =>
      simp only [List.foldl_cons]
      have h1 : acc.2 ≤ (pickBestStep hs acc i).2 := by
        rw [pickBestStep_eq]
        split
        · next h => exact le_of_lt h.2
        · exact le_refl _
      exact le_trans h1 (ih _)

theorem pickBest_some (hs : List String) (L : List Integration)
    (acc : Option Integration × ℚ) (i : Integration)
    (h : (L.foldl (pickBestStep hs) acc).1 = some i) :
    (acc.1 = some i ∧ (L.foldl (pickBestStep hs) acc).2 = acc.2) ∨
    (i ∈ L ∧ scoreOf hs i = (L.foldl (pickBestStep hs) acc).2 ∧
      scoreOf hs i > 7/10) := by
  induction L generalizing acc with
  | nil => exact Or.inl ⟨h, rfl⟩
  | cons j L ih =>
      simp only [List.foldl_cons] at h ⊢
      by_cases hc : scoreOf hs j > 7/10 ∧ scoreOf hs j > acc.2
      · have hstep : pickBestStep hs acc j = (some j, scoreOf hs j) := by
          rw [pickBestStep_eq, if_pos hc]
        rw [hstep] at h ⊢
        rcases ih (some j, scoreOf hs j) h with ⟨h1, h2⟩ | ⟨h1, h2, h3⟩
        · have hij : j = i := Option.some.inj h1
          subst hij
          exact Or.inr ⟨by simp, by simpa using h2.symm, hc.1⟩
        · exact Or.inr ⟨List.mem_cons_of_mem _ h1, h2, h3⟩
      · have hstep : pickBestStep hs acc j = acc := by
          rw [pickBestStep_eq, if_neg hc]
        rw [hstep] at h ⊢
        rcases ih acc h with hL | hR
        · exact Or.inl hL
        · exact Or.inr ⟨List.mem_cons_of_mem _ hR.1, hR.2⟩

theorem pickBest_bound (hs : List String) (L : List Integration)
    (acc : Option Integration × ℚ) (j : Integration)
    (hj : j ∈ L) (hscore : scoreOf hs j > 7/10) :
    scoreOf hs j ≤ (L.foldl (pickBestStep hs) acc).2 := by
  induction L generalizing acc with
  | nil => cases hj
  | cons k L ih =>
      simp only [List.foldl_cons]
      rcases List.mem_cons.mp hj with rfl | hj2
      · refine le_trans ?_ (pickBest_snd_mono hs L (pickBestStep hs acc j))
        rw [pickBestStep_eq]
        split
        · exact le_refl _
        · next hC =>
            rcases not_and_or.mp hC with hC | hC
            · exact absurd hscore hC
            · exact le_of_not_lt hC
      · exact ih (pickBestStep hs acc k) hj2

theorem pickBest_none (hs : List String) (L : List Integration)
    (acc : Option Integration × ℚ)
    (h : (L.foldl (pickBestStep hs) acc).1 = none) :
    acc.1 = none ∧
    ∀ j ∈ L, ¬(scoreOf hs j > 7/10 ∧ scoreOf hs j > acc.2) := by
  induction L generalizing acc with
  | nil => exact ⟨h, by simp⟩
  | cons k L ih =>
      simp only [List.foldl_cons] at h
      by_cases hc : scoreOf hs k > 7/10 ∧ scoreOf hs k > acc.2
      · have hstep : pickBestStep hs acc k = (some k, scoreOf hs k) := by
          rw [pickBestStep_eq, if_pos hc]
        rw [hstep] at h
        rcases ih (some k, scoreOf hs k) h with ⟨h1, _⟩
        cases h1
      · have hstep : pickBestStep hs acc k = acc := by
          rw [pickBestStep_eq, if_neg hc]
        rw [hstep] at h
        rcases ih acc h with ⟨h1, h2⟩
        refine ⟨h1, ?_⟩
        intro j hj
        rcases List.mem_cons.mp hj with rfl | hj2
        · exact hc
        · exact h2 j hj2

theorem pickBest_stay_none (hs : List String) (L : List Integration)
    (h : ∀ j ∈ L, ¬ scoreOf hs j > 7/10) :
    L.foldl (pickBestStep hs) (none, 0) = (none, 0) := by
  induction L with
  | nil => rfl
  | cons k L ih =>
      simp only [List.foldl_cons]
      have hk : pickBestStep hs (none, 0) k = (none, 0) := by
        rw [pickBestStep_eq, if_neg]
        intro hc
        exact h k (by simp) hc.1
      rw [hk, ih (fun j hj => h j (by simp [hj]))]

end Ingest
namespace Ingest

/-- A generic date parse that recognises nothing (a fixed instance of
`new Date(string)` for concrete runs that never parse dates). -/
def gp0 : String → Option DateV := fun _ => none

/-- Ten field-mapping keys for the threshold fixture. -/
def keys10 : List String :=
  ["k0", "k1", "k2", "k3", "k4", "k5", "k6", "k7", "k8", "k9"]

/-- An active integration whose field mapping has ten keys. -/
def integTen : Integration :=
  { id := 2, name := "ten", platform_id := 1,
    field_mapping := keys10.map (fun k => (k, ({ target := k } : FieldMap))),
    tables := [], is_active := true }

/-- A store holding only `integTen`. -/
def dbTen : DB :=
  { integrations := [integTen], restaurants := [], orders := [], ratings := [],
    jobs := [], processedFiles := [], nextRestaurantId := 1, nextOrderId := 1,
    nextJobId := 1 }

/-- Headers matching exactly 7 of `integTen`'s 10 keys. -/
def heads7 : List String := ["k0", "k1", "k2", "k3", "k4", "k5", "k6"]

theorem scoreOf_heads7 : scoreOf heads7 integTen = 7/10 := by
  simp only [scoreOf]
  rw [show ((integTen.field_mapping.map (fun p => p.1)).filter
        (fun k => heads7.contains k)).length = 7 from by decide,
      show (integTen.field_mapping.map (fun p => p.1)).length = 10 from by decide]
  norm_num

theorem scoreOf_keys10 : scoreOf keys10 integTen = 1 := by
  simp only [scoreOf]
  rw [show ((integTen.field_mapping.map (fun p => p.1)).filter
        (fun k => keys10.contains k)).length = 10 from by decide,
      show (integTen.field_mapping.map (fun p => p.1)).length = 10 from by decide]
  norm_num

theorem headersTen_none : getIntegrationByHeaders dbTen heads7 = none := by
  unfold getIntegrationByHeaders
  rw [show dbTen.integrations.filter (fun i => i.is_active) = [integTen] from rfl]
  rw [pickBest_stay_none heads7 [integTen] ?_]
  · intro j hj
    simp only [List.mem_singleton] at hj
    subst hj
    rw [scoreOf_heads7]
    exact lt_irrefl _

/-- C3 counterexample: a header set matching exactly 70% of the
configuration's field-mapping keys — "at least 70%", as the claim puts
it — does NOT select the configuration: the code requires a score strictly
above 0.7, so detection returns nothing and the run fails with a
validation error. -/
theorem claim_C3_counterexample :
    integTen.is_active = true ∧
    scoreOf heads7 integTen = 7/10 ∧
    ¬ scoreOf heads7 integTen < 7/10 ∧
    getIntegrationByHeaders dbTen heads7 = none ∧
    (stream gp0 dbTen ["k0,k1,k2,k3,k4,k5,k6"] "p" "h" none).2 =
      .error (.validationError "Could not detect integration") := by
  refine ⟨rfl, scoreOf_heads7, ?_, headersTen_none, ?_⟩
  · rw [scoreOf_heads7]; exact lt_irrefl _
  · have hh : headerNames "k0,k1,k2,k3,k4,k5,k6" = heads7 := by decide
    have hres : resolveIntegration dbTen none
        (headerNames "k0,k1,k2,k3,k4,k5,k6") = none := by
      show getIntegrationByHeaders dbTen (headerNames "k0,k1,k2,k3,k4,k5,k6") = none
      rw [hh]; exact headersTen_none
    simp [stream, hres]

/-- C3 (amended): header detection selects the active integration with the
maximal fraction of its field-mapping keys present in the headers, a match
requires a score strictly greater than 70% (exactly 70% does not match),
and when no active integration exceeds the threshold no configuration
matches and the run fails with a validation error. -/
theorem claim_C3 :
    (∀ db hs i, getIntegrationByHeaders db hs = some i →
       i ∈ db.integrations ∧ i.is_active = true ∧ scoreOf hs i > 7/10 ∧
       ∀ j ∈ db.integrations, j.is_active = true →
         scoreOf hs j ≤ scoreOf hs i) ∧
    (∀ db hs, getIntegrationByHeaders db hs = none ↔
       ∀ j ∈ db.integrations, j.is_active = true → scoreOf hs j ≤ 7/10) ∧
    (∀ gp db headerLine rest path fileHash,
       getIntegrationByHeaders db (headerNames headerLine) = none →
       stream gp db (headerLine :: rest) path fileHash none =
         (db, .error (.validationError "Could not detect integration"))) := by
  refine ⟨?_, ?_, ?_⟩
  · intro db hs i h
    unfold getIntegrationByHeaders at h
    rcases pickBest_some hs (db.integrations.filter (fun i => i.is_active))
        (none, 0) i h with ⟨h1, _⟩ | ⟨hmem, hscoreEq, hgt⟩
    · cases h1
    · have hmem2 := List.mem_filter.mp hmem
      refine ⟨hmem2.1, by simpa using hmem2.2, hgt, ?_⟩
      intro j hj hact
      by_cases hjs : scoreOf hs j > 7/10
      · have hb := pickBest_bound hs
          (db.integrations.filter (fun i => i.is_active))
          (none, 0) j (List.mem_filter.mpr ⟨hj, by simp [hact]⟩) hjs
        rw [← hscoreEq] at hb
        exact hb
      · exact le_trans (le_of_not_lt hjs) (le_of_lt hgt)
  · intro db hs
    constructor
    · intro h j hj hact
      unfold getIntegrationByHeaders at h
      rcases pickBest_none hs (db.integrations.filter (fun i => i.is_active))
          (none, 0) h with ⟨_, h2⟩
      by_contra hgt
      push_neg at hgt
      exact h2 j (List.mem_filter.mpr ⟨hj, by simp [hact]⟩)
        ⟨hgt, lt_trans (by norm_num) hgt⟩
    · intro h
      unfold getIntegrationByHeaders
      rw [pickBest_stay_none hs (db.integrations.filter (fun i => i.is_active))]
      intro j hj
      have hm := List.mem_filter.mp hj
      exact not_lt_of_le (h j hm.1 (by simpa using hm.2))
  · intro gp db headerLine rest path fileHash h
    have hres : resolveIntegration db none (headerNames headerLine) = none := h
    simp [stream, hres]

/-- Witness for C3 at a concrete store and header set (a full match). -/
theorem claim_C3_witness :
    integTen ∈ dbTen.integrations ∧ integTen.is_active = true ∧
    scoreOf keys10 integTen > 7/10 ∧
    (∀ j ∈ dbTen.integrations, j.is_active = true →
       scoreOf keys10 j ≤ scoreOf keys10 integTen) :=
  claim_C3.1 dbTen keys10 integTen (by
    unfold getIntegrationByHeaders
    rw [show dbTen.integrations.filter (fun i => i.is_active) = [integTen] from rfl]
    simp only [List.foldl_cons, List.foldl_nil]
    rw [pickBestStep_eq, if_pos]
    constructor
    · rw [scoreOf_keys10]; norm_num
    · rw [scoreOf_keys10]; norm_num)

end Ingest
namespace Ingest

/-! ### Lemmas: stream preservation and the dedup ledger -/

theorem upsertRestaurant_pres (db : DB) (n : String) (pid : Nat)
    (e : Option String) (rid : Nat) (db' : DB)
    (h : upsertRestaurant db n pid e = .ok (rid, db')) :
    db'.integrations = db.integrations ∧
    db'.processedFiles = db.processedFiles := by
  unfold upsertRestaurant at h
  split at h
  · cases h
  · repeat'
      first
      | (rw [Except.ok.injEq, Prod.mk.injEq] at h
         obtain ⟨-, rfl⟩ := h
         exact ⟨rfl, rfl⟩)
      | split at h
      | dsimp only at h

theorem upsertOrder_pres (db : DB) (od : OrderRow) (oid : Nat) (db' : DB)
    (h : upsertOrder db od = .ok (oid, db')) :
    db'.integrations = db.integrations ∧
    db'.processedFiles = db.processedFiles := by
  unfold upsertOrder at h
  split at h
  · cases h
  · repeat'
      first
      | (rw [Except.ok.injEq, Prod.mk.injEq] at h
         obtain ⟨-, rfl⟩ := h
         exact ⟨rfl, rfl⟩)
      | split at h
      | dsimp only at h

theorem upsertRating_pres (db : DB) (rd : RatingData) (rid pid : Nat) :
    (upsertRating db rd rid pid).integrations = db.integrations ∧
    (upsertRating db rd rid pid).processedFiles = db.processedFiles := by
  unfold upsertRating
  repeat'
    first
    | exact ⟨rfl, rfl⟩
    | split
    | dsimp only

theorem processRecordRatings_pres (db : DB) (rec : RecV) (integ : Integration)
    (rid : Nat) :
    (processRecordRatings db rec integ rid).integrations = db.integrations ∧
    (processRecordRatings db rec integ rid).processedFiles = db.processedFiles := by
  unfold processRecordRatings
  split
  · split
    · exact upsertRating_pres db _ rid integ.platform_id
    · exact ⟨rfl, rfl⟩
  · exact ⟨rfl, rfl⟩

theorem processRecordTables_pres (db : DB) (rec : RecV) (integ : Integration)
    (rid : Nat) :
    (processRecordTables db rec integ rid).1.integrations = db.integrations ∧
    (processRecordTables db rec integ rid).1.processedFiles = db.processedFiles := by
  unfold processRecordTables
  split
  · split
    · exact ⟨rfl, rfl⟩
    · next oid db1 hup =>
        have h1 := upsertOrder_pres db _ oid db1 hup
        have h2 := processRecordRatings_pres db1 rec integ rid
        exact ⟨h2.1.trans h1.1, h2.2.trans h1.2⟩
  · exact processRecordRatings_pres db rec integ rid

theorem processRecord_pres (db : DB) (rec : RecV) (integ : Integration) :
    (processRecord db rec integ).1.integrations = db.integrations ∧
    (processRecord db rec integ).1.processedFiles = db.processedFiles := by
  unfold processRecord
  split
  · dsimp only
    split
    · exact ⟨rfl, rfl⟩
    · next rid db1 hup =>
        have h1 := upsertRestaurant_pres db _ integ.platform_id _ rid db1 hup
        have h2 := processRecordTables_pres db1 rec integ rid
        exact ⟨h2.1.trans h1.1, h2.2.trans h1.2⟩
  · exact processRecordTables_pres db rec integ 0

end Ingest
namespace Ingest

theorem updateJob_pres (db : DB) (jobId : Nat) (st : String)
    (t p i er : Option Int) (em : Option String) :
    (updateJob db jobId st t p i er em).integrations = db.integrations ∧
    (updateJob db jobId st t p i er em).processedFiles = db.processedFiles :=
  ⟨rfl, rfl⟩

/-- A successful data-row loop preserves the integration table and always
ends by writing the dedup-ledger row for `(integ.id, fileHash)`. -/
theorem streamLoop_ok (gp : String → Option DateV) (integ : Integration)
    (jobId : Nat) (headers : List String) (path fileHash : String) :
    ∀ (lines : List String) (db : DB) (processed skipped lineCount : Nat)
      (db' : DB) (r : StreamResult),
      streamLoop gp db integ jobId headers path fileHash
        lines processed skipped lineCount = (db', .ok r) →
      db'.integrations = db.integrations ∧
      isFileProcessed db' integ.id "" fileHash = true := by
  intro lines
  induction lines with
  | nil =>
      intro db processed skipped lineCount db' r h
      unfold streamLoop at h
      rw [Prod.mk.injEq] at h
      obtain ⟨rfl, -⟩ := h
      refine ⟨rfl, ?_⟩
      simp [isFileProcessed, recordProcessedFile, updateJob]
  | cons line rest ih =>
      intro db processed skipped lineCount db' r h
      unfold streamLoop at h
      dsimp only at h
      split at h
      · rw [Prod.mk.injEq] at h
        cases h.2
      · exact ih db processed (skipped + 1) (lineCount + 1) db' r h
      · next rec heq =>
          rcases hpr : processRecord db rec integ with ⟨db1, res1⟩
          rw [hpr] at h
          cases res1 with
          | error e =>
              dsimp only at h
              rw [Prod.mk.injEq] at h
              cases h.2
          | ok u =>
              dsimp only at h
              rcases ih db1 (processed + 1) skipped (lineCount + 1) db' r h
                with ⟨h1, h2⟩
              have hp := processRecord_pres db rec integ
              rw [hpr] at hp
              exact ⟨h1.trans hp.1, h2⟩
end Ingest
namespace Ingest

theorem resolveIntegration_congr (db1 db : DB) (k : Option String)
    (hs : List String) (h : db1.integrations = db.integrations) :
    resolveIntegration db1 k hs = resolveIntegration db k hs := by
  cases k <;>
    simp [resolveIntegration, getIntegrationByName, getIntegrationByHeaders, h]

/-- C1: a file whose content hash already has a ledger entry for the
resolved integration short-circuits with `{processed: 0, skipped: 0}` and
an unchanged store (no row persistence, no job), reported as success; the
dedup key is `(integrationId, contentHash)` — the path arguments are
arbitrary and play no role — so re-ingesting the same bytes (same hash)
under any other path after a successful run is a no-op. -/
theorem claim_C1 :
    (∀ gp db headerLine rest path fileHash key integ,
       resolveIntegration db key (headerNames headerLine) = some integ →
       isFileProcessed db integ.id "" fileHash = true →
       stream gp db (headerLine :: rest) path fileHash key =
         (db, .ok ⟨0, 0⟩)) ∧
    (∀ gp hashFn db lines path1 path2 key db1 res,
       lines ≠ [] →
       processFileRun gp hashFn db lines path1 key = (db1, .ok res) →
       processFileRun gp hashFn db1 lines path2 key = (db1, .ok ⟨0, 0⟩)) := by
  have part1 : ∀ gp db headerLine rest path fileHash key integ,
      resolveIntegration db key (headerNames headerLine) = some integ →
      isFileProcessed db integ.id "" fileHash = true →
      stream gp db (headerLine :: rest) path fileHash key =
        (db, .ok ⟨0, 0⟩) := by
    intro gp db hl rest path fh key integ hres hdup
    simp [stream, hres, hdup]
  refine ⟨part1, ?_⟩
  intro gp hashFn db lines path1 path2 key db1 res hne hrun
  cases lines with
  | nil => exact absurd rfl hne
  | cons hl rest =>
      unfold processFileRun at hrun ⊢
      unfold stream at hrun
      dsimp only at hrun
      rcases hres : resolveIntegration db key (headerNames hl) with _ | integ <;>
        rw [hres] at hrun
      · dsimp only at hrun
        rw [Prod.mk.injEq] at hrun
        cases hrun.2
      · dsimp only at hrun
        cases hdup : isFileProcessed db integ.id "" (hashFn (hl :: rest)) with
        | true =>
            simp only [hdup, if_true] at hrun
            rw [Prod.mk.injEq] at hrun
            obtain ⟨h1, -⟩ := hrun
            exact h1 ▸ part1 gp db hl rest path2 (hashFn (hl :: rest)) key integ
              hres hdup
        | false =>
            simp only [hdup, if_false, Bool.false_eq_true] at hrun
            have hloop := streamLoop_ok gp integ
              (createJob db integ.id path1 0).1 (headerNames hl) path1
              (hashFn (hl :: rest)) rest (createJob db integ.id path1 0).2
              0 0 1 db1 res hrun
            have hint : db1.integrations = db.integrations := hloop.1
            exact part1 gp db1 hl rest path2 (hashFn (hl :: rest)) key integ
              ((resolveIntegration_congr db1 db key (headerNames hl) hint).trans
                hres)
              hloop.2

/-- A fixed content hash (the hash is a function of the content only). -/
def hashFn0 : List String → String := fun _ => "h1"

/-- A one-column field mapping with no type, transform, or requirement. -/
def fmPlain : FieldMap := { target := "some_field" }

/-- A minimal active integration targeting no tables. -/
def integA : Integration :=
  { id := 1, name := "testint", platform_id := 1,
    field_mapping := [("Col", fmPlain)], tables := [], is_active := true }

/-- A store holding only `integA`. -/
def dbA : DB :=
  { integrations := [integA], restaurants := [], orders := [], ratings := [],
    jobs := [], processedFiles := [], nextRestaurantId := 1, nextOrderId := 1,
    nextJobId := 1 }

/-- Witness for C1: a concrete two-line file ingested twice, the second
time under a different path, is a no-op the second time. -/
theorem claim_C1_witness :
    processFileRun gp0 hashFn0
        (processFileRun gp0 hashFn0 dbA ["Col", "x"] "p1" (some "testint")).1
        ["Col", "x"] "p2" (some "testint") =
      ((processFileRun gp0 hashFn0 dbA ["Col", "x"] "p1" (some "testint")).1,
        .ok ⟨0, 0⟩) :=
  claim_C1.2 gp0 hashFn0 dbA ["Col", "x"] "p1" "p2" (some "testint")
    (processFileRun gp0 hashFn0 dbA ["Col", "x"] "p1" (some "testint")).1
    ⟨1, 0⟩ (by decide) rfl

end Ingest
namespace Ingest

/-- A field mapped through the `timeToMinutes` transform. -/
def fmTime : FieldMap :=
  { target := "total_delivery_time_minutes", type := some .number,
    transform := some "timeToMinutes" }

/-- An active integration whose only field uses `timeToMinutes`. -/
def integF : Integration :=
  { id := 1, name := "failint", platform_id := 1,
    field_mapping := [("T", fmTime)], tables := [], is_active := true }

/-- A store holding only `integF`. -/
def dbF : DB :=
  { integrations := [integF], restaurants := [], orders := [], ratings := [],
    jobs := [], processedFiles := [], nextRestaurantId := 1, nextOrderId := 1,
    nextJobId := 1 }

/-- C2: the claim says a processing error raised after the job was created
updates the job to status `'failed'` with the captured error message
before the process exits.  The code has no failure-path `updateJob` call
at all: evaluating the engine on a file whose data row makes
`timeToMinutes` throw (`"12:75"`) shows the run aborts with the
`ProcessingError`, yet the already-created job is left in its default
status `'pending'` with no error message, and no terminal status of any
kind is recorded (`'pending' ≠ 'failed'`). -/
theorem claim_C2 :
    (stream gp0 dbF ["T", "12:75"] "f.csv" "h" (some "failint")).2 =
      .error (.processingError "Invalid time values" "12:75") ∧
    (stream gp0 dbF ["T", "12:75"] "f.csv" "h" (some "failint")).1.jobs.map
      (fun j => j.status) = ["pending"] ∧
    (stream gp0 dbF ["T", "12:75"] "f.csv" "h" (some "failint")).1.jobs.map
      (fun j => j.error_message) = [none] ∧
    (stream gp0 dbF ["T", "12:75"] "f.csv" "h" (some "failint")).1.processedFiles
      = [] ∧
    "pending" ≠ "failed" :=
  ⟨rfl, rfl, rfl, rfl, by decide⟩

end Ingest
namespace Ingest

/-- C4: the row-level error asymmetry.  (i) If any `required` field's
transformed value is empty/null/undefined — all fields before it mapping
cleanly — the mapper returns `null` for the whole record; (ii) a record
the mapper rejects is counted as skipped and the loop continues with the
next row, the store untouched at that step; (iii) if a transform raises,
the whole file's loop stops at once with that error — the row is not
individually skipped and the remaining rows are never read. -/
theorem claim_C4 :
    (∀ gp raw pre k fm post acc acc1 v,
       transformFields gp raw pre acc = .ok (some acc1) →
       applyTransform gp (rawGet raw k) fm = .ok v →
       fm.required = true → jsEmptyish v = true →
       transformFields gp raw (pre ++ (k, fm) :: post) acc = .ok none) ∧
    (∀ gp db integ jobId headers path fileHash line rest p s lc,
       transform gp (buildRecord headers (parseCSVLine line)) integ =
         .ok none →
       streamLoop gp db integ jobId headers path fileHash
           (line :: rest) p s lc =
         streamLoop gp db integ jobId headers path fileHash
           rest p (s + 1) (lc + 1)) ∧
    (∀ gp db integ jobId headers path fileHash line rest p s lc e,
       transform gp (buildRecord headers (parseCSVLine line)) integ =
         .error e →
       streamLoop gp db integ jobId headers path fileHash
           (line :: rest) p s lc = (db, .error e)) := by
  refine ⟨?_, ?_, ?_⟩
  · intro gp raw pre
    induction pre with
    | nil =>
        intro k fm post acc acc1 v hpre happ hreq hempty
        unfold transformFields
        rw [List.nil_append] at *
        dsimp only
        rw [happ]
        dsimp only
        rw [if_pos ⟨hreq, hempty⟩]
    | cons hd pre' ih =>
        intro k fm post acc acc1 v hpre happ hreq hempty
        obtain ⟨k0, f0⟩ := hd
        rw [List.cons_append]
        unfold transformFields at hpre ⊢
        rcases happ0 : applyTransform gp (rawGet raw k0) f0 with e | tv
        · rw [happ0] at hpre
          simp at hpre
        · rw [happ0] at hpre
          dsimp only at hpre
          by_cases hcond : f0.required = true ∧ jsEmptyish tv = true
          · rw [if_pos hcond] at hpre
            cases hpre
          · rw [if_neg hcond] at hpre
            dsimp only
            rw [if_neg hcond]
            exact ih k fm post (setField acc f0.target tv) acc1 v hpre happ
              hreq hempty
  · intro gp db integ jobId headers path fileHash line rest p s lc htr
    conv_lhs => rw [streamLoop.eq_def]
    simp only [htr]
  · intro gp db integ jobId headers path fileHash line rest p s lc e htr
    conv_lhs => rw [streamLoop.eq_def]
    simp only [htr]

/-- A required restaurant-name field. -/
def fmReq : FieldMap := { target := "restaurant_name", required := true }

/-- A required order-id field. -/
def fmId : FieldMap := { target := "platform_order_id", required := true }

/-- An integration with two required fields targeting orders+restaurants. -/
def integR : Integration :=
  { id := 4, name := "reqint", platform_id := 2,
    field_mapping := [("Name", fmReq), ("Oid", fmId)],
    tables := ["orders", "restaurants"], is_active := true }

/-- A store holding only `integR`. -/
def dbR : DB :=
  { integrations := [integR], restaurants := [], orders := [], ratings := [],
    jobs := [], processedFiles := [], nextRestaurantId := 1, nextOrderId := 1,
    nextJobId := 1 }

/-- Witness for C4: all three parts at concrete rows — a blank required
field rejects the record, a rejected row is skipped and the loop goes on,
and a throwing transform (`"12:75"`) stops the loop with the error. -/
theorem claim_C4_witness :
    transformFields gp0 [("Name", "")] ([] ++ ("Name", fmReq) :: []) [] =
      .ok none ∧
    streamLoop gp0 dbR integR 1 ["Name", "Oid"] "r.csv" "hr"
        [",A2"] 0 0 1 =
      streamLoop gp0 dbR integR 1 ["Name", "Oid"] "r.csv" "hr" [] 0 1 2 ∧
    streamLoop gp0 dbF integF 1 ["T"] "f.csv" "h" ["12:75"] 0 0 1 =
      (dbF, .error (.processingError "Invalid time values" "12:75")) :=
  ⟨claim_C4.1 gp0 [("Name", "")] [] "Name" fmReq [] [] [] .null rfl rfl rfl
      rfl,
   claim_C4.2.1 gp0 dbR integR 1 ["Name", "Oid"] "r.csv" "hr" ",A2" [] 0 0 1
      rfl,
   claim_C4.2.2 gp0 dbF integF 1 ["T"] "f.csv" "h" "12:75" [] 0 0 1
      (.processingError "Invalid time values" "12:75") rfl⟩

end Ingest
namespace Ingest

/-- C5: `timeToMinutes` returns `null` for empty/whitespace (or undefined)
input; for input containing `:` with 2–3 parts it returns
`hours*60 + minutes + round(seconds/60)` when `0 ≤ minutes ≤ 59`,
`0 ≤ seconds ≤ 59` and hours is non-negative (no upper bound on hours, so
`"25:00"` succeeds), else fails with the malformed-time error carrying the
offending value; without `:` it rounds a parsed non-negative float and
fails with the malformed-numeric-time error otherwise; in particular
`"01:02:30" = 63`, `"5.5" = 6`, and `"12:75"` fails. -/
theorem claim_C5 :
    (∀ s : String, jsTrim s = "" → timeToMinutes (some s) = .ok none) ∧
    timeToMinutes none = .ok none ∧
    (∀ s : String, jsTrim s ≠ "" → s.toList.contains ':' = true →
      2 ≤ (timeParts s).length → (timeParts s).length ≤ 3 →
      ((¬(timeHours s < 0 ∨ timeMins s < 0 ∨ timeMins s > 59 ∨
          timeSecs s < 0 ∨ timeSecs s > 59) →
        timeToMinutes (some s) = .ok (some (timeHours s * 60 + timeMins s +
          jsRound ((timeSecs s : ℚ) / 60)))) ∧
       ((timeHours s < 0 ∨ timeMins s < 0 ∨ timeMins s > 59 ∨
          timeSecs s < 0 ∨ timeSecs s > 59) →
        timeToMinutes (some s) =
          .error (.processingError "Invalid time values" s)))) ∧
    (∀ s : String, jsTrim s ≠ "" → s.toList.contains ':' = false →
      (∀ q, jsParseFloatList s.toList = some q → 0 ≤ q →
        timeToMinutes (some s) = .ok (some (jsRound q))) ∧
      (jsParseFloatList s.toList = none →
        timeToMinutes (some s) =
          .error (.processingError "Invalid numeric time value" s)) ∧
      (∀ q, jsParseFloatList s.toList = some q → q < 0 →
        timeToMinutes (some s) =
          .error (.processingError "Invalid numeric time value" s))) ∧
    timeToMinutes (some "01:02:30") = .ok (some 63) ∧
    timeToMinutes (some "5.5") = .ok (some 6) ∧
    timeToMinutes (some "12:75") =
      .error (.processingError "Invalid time values" "12:75") ∧
    timeToMinutes (some "25:00") = .ok (some 1500) := by
  have hws : ∀ s : String, jsTrim s = "" → timeToMinutes (some s) = .ok none := by
    intro s h
    unfold timeToMinutes
    rw [if_pos (by simp [isValidStringOpt, h])]
  have hcolon : ∀ s : String, jsTrim s ≠ "" → s.toList.contains ':' = true →
      2 ≤ (timeParts s).length → (timeParts s).length ≤ 3 →
      ((¬(timeHours s < 0 ∨ timeMins s < 0 ∨ timeMins s > 59 ∨
          timeSecs s < 0 ∨ timeSecs s > 59) →
        timeToMinutes (some s) = .ok (some (timeHours s * 60 + timeMins s +
          jsRound ((timeSecs s : ℚ) / 60)))) ∧
       ((timeHours s < 0 ∨ timeMins s < 0 ∨ timeMins s > 59 ∨
          timeSecs s < 0 ∨ timeSecs s > 59) →
        timeToMinutes (some s) =
          .error (.processingError "Invalid time values" s))) := by
    intro s hv hc h2 h3
    unfold timeToMinutes
    rw [if_neg (by simp [isValidStringOpt, hv])]
    dsimp only
    simp only [Option.getD_some]
    rw [if_pos hc, if_neg (by omega)]
    constructor
    · intro hb
      rw [if_neg hb]
    · intro hb
      rw [if_pos hb]
  have hnum : ∀ s : String, jsTrim s ≠ "" → s.toList.contains ':' = false →
      (∀ q, jsParseFloatList s.toList = some q → 0 ≤ q →
        timeToMinutes (some s) = .ok (some (jsRound q))) ∧
      (jsParseFloatList s.toList = none →
        timeToMinutes (some s) =
          .error (.processingError "Invalid numeric time value" s)) ∧
      (∀ q, jsParseFloatList s.toList = some q → q < 0 →
        timeToMinutes (some s) =
          .error (.processingError "Invalid numeric time value" s)) := by
    intro s hv hc
    have hbase : timeToMinutes (some s) =
        match jsParseFloatList s.toList with
        | none => .error (.processingError "Invalid numeric time value" s)
        | some q =>
            if q < 0 then .error (.processingError "Invalid numeric time value" s)
            else .ok (some (jsRound q)) := by
      unfold timeToMinutes
      rw [if_neg (by simp [isValidStringOpt, hv])]
      dsimp only
      simp only [Option.getD_some]
      rw [if_neg (by rw [hc]; decide)]
    refine ⟨?_, ?_, ?_⟩
    · intro q hq hge
      rw [hbase, hq]
      dsimp only
      rw [if_neg (not_lt.mpr hge)]
    · intro hq
      rw [hbase, hq]
    · intro q hq hlt
      rw [hbase, hq]
      dsimp only
      rw [if_pos hlt]
  refine ⟨hws, rfl, hcolon, hnum, ?_, ?_, ?_, ?_⟩
  · have h := (hcolon "01:02:30" (by decide) (by decide) (by decide)
      (by decide)).1 (by decide)
    rw [h, show timeHours "01:02:30" = 1 from by decide,
        show timeMins "01:02:30" = 2 from by decide,
        show timeSecs "01:02:30" = 30 from by decide, jsRound]
    norm_num
  · have hp : jsParseFloatList "5.5".toList =
        some (jsParseFloatVal (false, ['5'], ['5'], 0)) := by
      unfold jsParseFloatList
      rw [show jsParseFloatParts "5.5".toList = some (false, ['5'], ['5'], 0)
        from by decide]
      rfl
    have hqv : jsParseFloatVal (false, ['5'], ['5'], 0) = 11/2 := by
      unfold jsParseFloatVal
      dsimp only
      rw [show digitsVal ['5'] = 5 from by decide]
      norm_num
    have h := (hnum "5.5" (by decide) (by decide)).1
      (jsParseFloatVal (false, ['5'], ['5'], 0)) hp (by rw [hqv]; norm_num)
    rw [h, show jsRound (jsParseFloatVal (false, ['5'], ['5'], 0)) = 6
      from by rw [hqv, jsRound]; norm_num]
  · exact (hcolon "12:75" (by decide) (by decide) (by decide) (by decide)).2
      (by decide)
  · have h := (hcolon "25:00" (by decide) (by decide) (by decide)
      (by decide)).1 (by decide)
    rw [h, show timeHours "25:00" = 25 from by decide,
        show timeMins "25:00" = 0 from by decide,
        show timeSecs "25:00" = 0 from by decide, jsRound]
    norm_num

/-- Witness for C5 at concrete inputs for each hypothesis-guarded part. -/
theorem claim_C5_witness :
    timeToMinutes (some "   ") = .ok none ∧
    timeToMinutes (some "7:30") = .ok (some (timeHours "7:30" * 60 +
      timeMins "7:30" + jsRound ((timeSecs "7:30" : ℚ) / 60))) ∧
    timeToMinutes (some "abc") =
      .error (.processingError "Invalid numeric time value" "abc") :=
  ⟨claim_C5.1 "   " (by decide),
   (claim_C5.2.2.1 "7:30" (by decide) (by decide) (by decide) (by decide)).1
     (by decide),
   (claim_C5.2.2.2.1 "abc" (by decide) (by decide)).2.1 (by decide)⟩

end Ingest
namespace Ingest

/-- The aggregate-counts integration identity, as seeded. -/
def dp3Fix : Integration :=
  { id := 3, name := "deliveryplatform3_total_order", platform_id := 3,
    field_mapping := [], tables := ["orders", "restaurants"],
    is_active := true }

/-- C6 counterexample: a customer-cancelled count of `-1` is non-zero, yet
the status is not `CANCELLED_CUSTOMER` — the code checks `> 0`, so the
negative count falls through and the record defaults to `ACCEPTED`. -/
theorem claim_C6_counterexample :
    jsParseIntVal (jsOr (getField
        [("customer_cancelled_count", JSVal.str "-1")]
        "customer_cancelled_count") (.str "0")) = some (-1) ∧
    (-1 : Int) ≠ 0 ∧
    determineOrderStatus [("customer_cancelled_count", JSVal.str "-1")]
      dp3Fix = .str "ACCEPTED" ∧
    JSVal.str "ACCEPTED" ≠ JSVal.str "CANCELLED_CUSTOMER" :=
  ⟨by decide, by decide, by decide, by decide⟩

/-- C6 (amended): for `deliveryplatform3_total_order` the status is
`CANCELLED_CUSTOMER` whenever the parsed customer-cancelled count is
strictly positive (not merely non-zero) — this check precedes the partner
check, so counts 1/1 give `CANCELLED_CUSTOMER` — else
`CANCELLED_RESTAURANT` for a strictly positive partner-cancelled count,
else `COMPLETED`/`REJECTED` for a case-insensitive raw status
`good`/`bad`, else `ACCEPTED`; and an unrecognized integration identity
always yields `ACCEPTED`. -/
theorem claim_C6 :
    (∀ (r : RecV) (integ : Integration),
      integ.name = "deliveryplatform3_total_order" →
      (optGtZero (jsParseIntVal (jsOr (getField r "customer_cancelled_count")
          (.str "0"))) = true →
        determineOrderStatus r integ = .str "CANCELLED_CUSTOMER") ∧
      (optGtZero (jsParseIntVal (jsOr (getField r "customer_cancelled_count")
          (.str "0"))) = false →
       optGtZero (jsParseIntVal (jsOr (getField r "partner_cancelled_count")
          (.str "0"))) = true →
        determineOrderStatus r integ = .str "CANCELLED_RESTAURANT") ∧
      (optGtZero (jsParseIntVal (jsOr (getField r "customer_cancelled_count")
          (.str "0"))) = false →
       optGtZero (jsParseIntVal (jsOr (getField r "partner_cancelled_count")
          (.str "0"))) = false →
       rawStatusLower (getField r "order_status_raw") = some "good" →
        determineOrderStatus r integ = .str "COMPLETED") ∧
      (optGtZero (jsParseIntVal (jsOr (getField r "customer_cancelled_count")
          (.str "0"))) = false →
       optGtZero (jsParseIntVal (jsOr (getField r "partner_cancelled_count")
          (.str "0"))) = false →
       rawStatusLower (getField r "order_status_raw") = some "bad" →
        determineOrderStatus r integ = .str "REJECTED") ∧
      (optGtZero (jsParseIntVal (jsOr (getField r "customer_cancelled_count")
          (.str "0"))) = false →
       optGtZero (jsParseIntVal (jsOr (getField r "partner_cancelled_count")
          (.str "0"))) = false →
       rawStatusLower (getField r "order_status_raw") ≠ some "good" →
       rawStatusLower (getField r "order_status_raw") ≠ some "bad" →
        determineOrderStatus r integ = .str "ACCEPTED")) ∧
    determineOrderStatus [("customer_cancelled_count", JSVal.str "1"),
        ("partner_cancelled_count", JSVal.str "1")] dp3Fix =
      .str "CANCELLED_CUSTOMER" ∧
    (∀ (r : RecV) (integ : Integration),
      integ.name ∉ ["deliveryplatform1_order_history",
        "deliveryplatform3_total_order",
        "deliveryplatform2_business_segments"] →
      determineOrderStatus r integ = .str "ACCEPTED") := by
  refine ⟨?_, by decide, ?_⟩
  · intro r integ hname
    have hbase : determineOrderStatus r integ =
        (if optGtZero (jsParseIntVal (jsOr (getField r "customer_cancelled_count")
            (.str "0"))) then JSVal.str "CANCELLED_CUSTOMER"
         else if optGtZero (jsParseIntVal (jsOr (getField r "partner_cancelled_count")
            (.str "0"))) then JSVal.str "CANCELLED_RESTAURANT"
         else
           match rawStatusLower (getField r "order_status_raw") with
           | some st =>
               if st = "good" then JSVal.str "COMPLETED"
               else if st = "bad" then JSVal.str "REJECTED"
               else JSVal.str "ACCEPTED"
           | none => JSVal.str "ACCEPTED") := by
      unfold determineOrderStatus
      rw [if_neg (by rw [hname]; decide), if_pos (by rw [hname])]
    refine ⟨?_, ?_, ?_, ?_, ?_⟩
    · intro h1
      rw [hbase, if_pos h1]
    · intro h1 h2
      rw [hbase, if_neg (by rw [h1]; decide), if_pos h2]
    · intro h1 h2 h3
      rw [hbase, if_neg (by rw [h1]; decide), if_neg (by rw [h2]; decide), h3]
      decide
    · intro h1 h2 h3
      rw [hbase, if_neg (by rw [h1]; decide), if_neg (by rw [h2]; decide), h3]
      decide
    · intro h1 h2 h3 h4
      rw [hbase, if_neg (by rw [h1]; decide), if_neg (by rw [h2]; decide)]
      cases hst : rawStatusLower (getField r "order_status_raw") with
      | none => rfl
      | some st =>
          dsimp only
          rw [if_neg (fun he => h3 (by rw [hst, he])),
              if_neg (fun he => h4 (by rw [hst, he]))]
  · intro r integ hname
    simp only [List.mem_cons, List.mem_singleton] at hname
    push_neg at hname
    unfold determineOrderStatus
    rw [if_neg (by simp [hname.1]), if_neg (by simp [hname.2.1]),
        if_neg (by simp [hname.2.2])]

/-- Witness for C6 at concrete records. -/
theorem claim_C6_witness :
    determineOrderStatus [("customer_cancelled_count", JSVal.str "2")]
      dp3Fix = .str "CANCELLED_CUSTOMER" ∧
    determineOrderStatus [("partner_cancelled_count", JSVal.str "3")]
      dp3Fix = .str "CANCELLED_RESTAURANT" ∧
    determineOrderStatus [("order_status_raw", JSVal.str "GoOd")]
      dp3Fix = .str "COMPLETED" ∧
    determineOrderStatus [("order_status_raw", JSVal.str "bad")]
      dp3Fix = .str "REJECTED" ∧
    determineOrderStatus [("order_status_raw", JSVal.str "meh")]
      dp3Fix = .str "ACCEPTED" ∧
    determineOrderStatus [] { dp3Fix with name := "nobody" } =
      .str "ACCEPTED" :=
  ⟨(claim_C6.1 [("customer_cancelled_count", JSVal.str "2")] dp3Fix
      rfl).1 (by decide),
   (claim_C6.1 [("partner_cancelled_count", JSVal.str "3")] dp3Fix
      rfl).2.1 (by decide) (by decide),
   (claim_C6.1 [("order_status_raw", JSVal.str "GoOd")] dp3Fix
      rfl).2.2.1 (by decide) (by decide) (by decide),
   (claim_C6.1 [("order_status_raw", JSVal.str "bad")] dp3Fix
      rfl).2.2.2.1 (by decide) (by decide) (by decide),
   (claim_C6.1 [("order_status_raw", JSVal.str "meh")] dp3Fix
      rfl).2.2.2.2 (by decide) (by decide) (by decide) (by decide),
   claim_C6.2.2 [] { dp3Fix with name := "nobody" } (by decide)⟩

end Ingest
namespace Ingest

/-- C7: per-field mapping precedence — an empty/falsy raw value with a
defined default takes the default, skipping transforms and coercion;
otherwise a named transform's result is used directly, bypassing
coercion; otherwise the value is coerced by declared type (number:
strip non-digit/period/minus then float-parse, empty/NaN to null;
boolean: case-insensitive membership in {on,true,1}, empty false;
date: generic parse, invalid null; enum: case-insensitive canonical
match, else raw value unchanged; untyped: trimmed string or null). -/
theorem claim_C7 :
    (∀ gp v fm d, optTruthy v = false → fm.default = some d →
       applyTransform gp v fm = .ok d) ∧
    (∀ gp v fm t, (optTruthy v = true ∨ fm.default = none) →
       fm.transform = some t →
       applyTransform gp v fm = runTransformation gp v t) ∧
    (∀ gp v fm, (optTruthy v = true ∨ fm.default = none) →
       fm.transform = none → fm.type = some .number →
       applyTransform gp v fm = .ok (
         if optTruthy v = false then JSVal.null
         else match jsParseFloatList ((v.getD "").toList.filter
                (fun c => c.isDigit ∨ c = '.' ∨ c = '-')) with
              | none => JSVal.null
              | some q => JSVal.num q)) ∧
    (∀ gp v fm, (optTruthy v = true ∨ fm.default = none) →
       fm.transform = none → fm.type = some .boolean →
       applyTransform gp v fm = .ok (
         if optTruthy v = false then JSVal.bool false
         else JSVal.bool (jsToLower (v.getD "") = "on" ∨
           jsToLower (v.getD "") = "true" ∨ jsToLower (v.getD "") = "1"))) ∧
    (∀ gp v fm, (optTruthy v = true ∨ fm.default = none) →
       fm.transform = none → fm.type = some .date →
       applyTransform gp v fm = .ok (
         if optTruthy v = false then JSVal.null
         else match gp (v.getD "") with
              | none => JSVal.null
              | some d => JSVal.date d)) ∧
    (∀ gp v fm, (optTruthy v = true ∨ fm.default = none) →
       fm.transform = none → fm.type = some .enum →
       applyTransform gp v fm = .ok (transformEnum v fm)) ∧
    (∀ v fm evs m, fm.enum_values = some evs →
       evs.find? (fun ev => some (jsToLower ev) = v.map jsToLower) = some m →
       m ≠ "" → transformEnum v fm = .str m) ∧
    (∀ v fm evs, fm.enum_values = some evs →
       evs.find? (fun ev => some (jsToLower ev) = v.map jsToLower) = none →
       transformEnum v fm = jsOfOptStr v) ∧
    (∀ gp v fm, (optTruthy v = true ∨ fm.default = none) →
       fm.transform = none → (fm.type = none ∨ fm.type = some .string) →
       applyTransform gp v fm = .ok (
         match v with
         | none => JSVal.null
         | some s =>
             if s = "" then JSVal.null
             else if jsTrim s = "" then JSVal.null
             else JSVal.str (jsTrim s))) := by
  have hskip : ∀ (v : OptStr) (fm : FieldMap),
      (optTruthy v = true ∨ fm.default = none) →
      ¬(¬ optTruthy v = true ∧ fm.default.isSome = true) := by
    intro v fm hor hc
    rcases hor with h | h
    · exact hc.1 h
    · rw [h] at hc
      cases hc.2
  refine ⟨?_, ?_, ?_, ?_, ?_, ?_, ?_, ?_, ?_⟩
  · intro gp v fm d hv hd
    unfold applyTransform
    rw [if_pos ⟨by simp [hv], by simp [hd]⟩, hd]
    rfl
  · intro gp v fm t hor ht
    unfold applyTransform
    rw [if_neg (hskip v fm hor), ht]
  · intro gp v fm hor ht hty
    unfold applyTransform
    rw [if_neg (hskip v fm hor), ht]
    dsimp only
    rw [hty]
    dsimp only
    cases hv : optTruthy v
    · rw [if_pos (by simp [hv]), if_pos (by simp [hv])]
    · rw [if_neg (by simp [hv]), if_neg (by simp [hv])]
      cases jsParseFloatList ((v.getD "").toList.filter
        (fun c => c.isDigit ∨ c = '.' ∨ c = '-')) <;> rfl
  · intro gp v fm hor ht hty
    unfold applyTransform
    rw [if_neg (hskip v fm hor), ht]
    dsimp only
    rw [hty]
    dsimp only
    cases hv : optTruthy v
    · rw [if_pos (by simp [hv]), if_pos (by simp [hv])]
    · rw [if_neg (by simp [hv]), if_neg (by simp [hv])]
  · intro gp v fm hor ht hty
    unfold applyTransform
    rw [if_neg (hskip v fm hor), ht]
    dsimp only
    rw [hty]
    dsimp only
    cases hv : optTruthy v
    · rw [if_pos (by simp [hv]), if_pos (by simp [hv])]
    · rw [if_neg (by simp [hv]), if_neg (by simp [hv])]
      cases gp (v.getD "") <;> rfl
  · intro gp v fm hor ht hty
    unfold applyTransform
    rw [if_neg (hskip v fm hor), ht]
    dsimp only
    rw [hty]
  · intro v fm evs m hevs hfind hm
    unfold transformEnum
    rw [hevs]
    dsimp only
    rw [hfind]
    dsimp only
    rw [if_neg hm]
  · intro v fm evs hevs hfind
    unfold transformEnum
    rw [hevs]
    dsimp only
    rw [hfind]
  · intro gp v fm hor ht hty
    unfold applyTransform
    rw [if_neg (hskip v fm hor), ht]
    dsimp only
    rcases hty with hty | hty <;>
      (rw [hty]
       dsimp only
       cases v with
       | none => rfl
       | some s =>
           dsimp only
           by_cases hs : s = ""
           · rw [if_pos hs, if_pos hs]
           · rw [if_neg hs, if_neg hs]
             by_cases hts : jsTrim s = ""
             · rw [if_pos hts, if_pos hts]
             · rw [if_neg hts, if_neg hts])
end Ingest

namespace Ingest

/-- Witness for C7: each precedence branch at a concrete field. -/
theorem claim_C7_witness :
    applyTransform gp0 (some "")
      { target := "x", default := some (.str "D"),
        transform := some "parseBoolean", type := some .number } =
      .ok (.str "D") ∧
    applyTransform gp0 (some "hi")
      { target := "x", transform := some "existsOrEmpty",
        type := some .number } =
      runTransformation gp0 (some "hi") "existsOrEmpty" ∧
    applyTransform gp0 (some "£") { target := "x", type := some .number } =
      .ok .null ∧
    applyTransform gp0 (some "TRUE") { target := "x", type := some .boolean } =
      .ok (.bool true) ∧
    applyTransform gp0 (some "notadate") { target := "x", type := some .date } =
      .ok .null ∧
    transformEnum (some "delivery")
      { target := "x", type := some .enum,
        enum_values := some ["Delivery", "Collection"] } =
      .str "Delivery" ∧
    transformEnum (some "pickup")
      { target := "x", type := some .enum,
        enum_values := some ["Delivery", "Collection"] } =
      .str "pickup" ∧
    applyTransform gp0 (some "  hi  ") { target := "x" } =
      .ok (.str "hi") := by
  refine ⟨?_, ?_, ?_, ?_, ?_, ?_, ?_, ?_⟩
  · exact claim_C7.1 gp0 (some "")
      { target := "x", default := some (.str "D"),
        transform := some "parseBoolean", type := some .number }
      (.str "D") (by decide) rfl
  · exact claim_C7.2.1 gp0 (some "hi")
      { target := "x", transform := some "existsOrEmpty",
        type := some .number } "existsOrEmpty" (Or.inl (by decide)) rfl
  · exact (claim_C7.2.2.1 gp0 (some "£")
      { target := "x", type := some .number } (Or.inl (by decide)) rfl
      rfl).trans rfl
  · exact (claim_C7.2.2.2.1 gp0 (some "TRUE")
      { target := "x", type := some .boolean } (Or.inl (by decide)) rfl
      rfl).trans rfl
  · exact (claim_C7.2.2.2.2.1 gp0 (some "notadate")
      { target := "x", type := some .date } (Or.inl (by decide)) rfl
      rfl).trans rfl
  · exact (claim_C7.2.2.2.2.2.2.1 (some "delivery")
      { target := "x", type := some .enum,
        enum_values := some ["Delivery", "Collection"] }
      ["Delivery", "Collection"] "Delivery" rfl (by decide) (by decide))
  · exact (claim_C7.2.2.2.2.2.2.2.1 (some "pickup")
      { target := "x", type := some .enum,
        enum_values := some ["Delivery", "Collection"] }
      ["Delivery", "Collection"] rfl (by decide)).trans rfl
  · exact (claim_C7.2.2.2.2.2.2.2.2 gp0 (some "  hi  ") { target := "x" }
      (Or.inl (by decide)) rfl (Or.inl rfl)).trans rfl

/-- C8: dispatching an unregistered transform name returns the raw value
unchanged — never an error. -/
theorem claim_C8 :
    ∀ gp (v : OptStr) (name : String), name ∉ knownTransformNames →
      runTransformation gp v name = .ok (jsOfOptStr v) := by
  intro gp v name h
  simp only [knownTransformNames, List.mem_cons, List.not_mem_nil, or_false]
    at h
  push_neg at h
  obtain ⟨h1, h2, h3, h4, h5, h6, h7, h8, h9, h10, h11, h12, h13, h14⟩ := h
  unfold runTransformation
  rw [if_neg h1, if_neg h2, if_neg h3, if_neg h4, if_neg h5, if_neg h6,
      if_neg h7, if_neg h8, if_neg h9, if_neg h10, if_neg h11, if_neg h12,
      if_neg h13, if_neg h14]

/-- Witness for C8 at a concrete unregistered name. -/
theorem claim_C8_witness :
    runTransformation gp0 (some "raw value") "notATransform" =
      .ok (.str "raw value") :=
  claim_C8 gp0 (some "raw value") "notATransform" (by decide)

/-- C9: a zero-line (empty) input file completes successfully with
`processed = 0` and `skipped = 0` and leaves the store untouched: no
integration lookup result, no dedup check, no job, no ledger entry, and
no validation error. -/
theorem claim_C9 :
    ∀ gp (db : DB) (path fileHash : String) (key : Option String),
      stream gp db [] path fileHash key = (db, .ok ⟨0, 0⟩) :=
  fun _ _ _ _ _ => rfl

end Ingest
